import Mathlib

/-
  Shallow embedding of src/firmware/nand_programmer.c (NAND programmer
  protocol / storage-control core) and proofs of the frozen claims.

  Modelling conventions:
  * C `uint32_t` arithmetic is Nat with explicit reduction modulo 2^32
    (`u32`, `u32sub`, `u32_pred`) at every point where the source can wrap.
  * External collaborators (flash driver, bad-block table, chip database,
    transport) are oracles collected in `np_env`; their observable calls are
    recorded in a trace of `np_ext_op` values, and the replies sent through
    the transport are recorded as a list of `np_resp_msg` values.  Transport
    sends are modelled as always succeeding (`np_comm_cb->send` returning 0).
  * `nand_read_status()` is an oracle indexed by the number of status reads
    performed so far; this read index (`rd`) is threaded through every
    handler.
  * The page buffer `prog->page.buf` is modelled as the list of bytes copied
    into it since its offset was last reset; the source always copies at the
    current offset, so the first `offset` bytes of the C array equal this
    list whenever `offset = list length` (an invariant of all reachable
    states used by the theorems).
  * The two unbounded C loops (the erase loop, which is bounded because the
    address check `addr >= size` aborts it and the address strictly grows,
    and the synchronous write-wait loop, which is bounded by the timeout
    counter) are written with an explicit fuel parameter; callers pass a fuel
    that is proved sufficient under the theorems' hypotheses.
-/

set_option maxHeartbeats 2000000
set_option maxRecDepth 8000

namespace NandProg

/-! ## uint32 / uint8 arithmetic helpers -/

/-- Truncation to 32 bits, modelling C `uint32_t` arithmetic. -/
def u32 (x : Nat) : Nat := x % 4294967296

/-- C `uint32_t` subtraction `a - b`, wrapping modulo 2^32. -/
def u32sub (a b : Nat) : Nat := (a + (4294967296 - b % 4294967296)) % 4294967296

/-- C `uint32_t` expression `x - 1` (used for alignment masks `x & (sz-1)`). -/
def u32_pred (x : Nat) : Nat := u32 (x + 4294967295)

/-- C cast of a (possibly negative) `int` to `uint8_t`. -/
def u8i (x : Int) : Nat := (x % 256).toNat

/-! ## Constants from the source -/

def NP_PACKET_BUF_SIZE : Nat := 64
def NP_MAX_PAGE_SIZE : Nat := 2048
def NP_WRITE_ACK_BYTES : Nat := 1984
def NP_NAND_TIMEOUT : Nat := 16777216
def NP_NAND_GOOD_BLOCK_MARK : Nat := 255

/-- sizeof(np_write_data_cmd_t) = sizeof(np_cmd_code_t enum, 4) + sizeof(uint8_t len). -/
def np_write_data_cmd_size : Nat := 5

/-- offsetof(np_resp_t, data) : two uint8_t header fields. -/
def np_resp_header_size : Nat := 2

/-- tx_data_len = sizeof(np_packet_send_buf) - resp_header_size. -/
def np_tx_data_len : Nat := NP_PACKET_BUF_SIZE - np_resp_header_size

/-! ## Error codes (the enum in the source) -/

def NP_ERR_INTERNAL : Int := -1
def NP_ERR_ADDR_EXCEEDED : Int := -100
def NP_ERR_ADDR_INVALID : Int := -101
def NP_ERR_ADDR_NOT_ALIGN : Int := -102
def NP_ERR_NAND_WR : Int := -103
def NP_ERR_NAND_RD : Int := -104
def NP_ERR_NAND_ERASE : Int := -105
def NP_ERR_CHIP_NOT_SEL : Int := -106
def NP_ERR_CHIP_NOT_FOUND : Int := -107
def NP_ERR_CMD_DATA_SIZE : Int := -108
def NP_ERR_CMD_INVALID : Int := -109
def NP_ERR_BUF_OVERFLOW : Int := -110
def NP_ERR_LEN_NOT_ALIGN : Int := -111
def NP_ERR_LEN_EXCEEDED : Int := -112
def NP_ERR_LEN_INVALID : Int := -113

/-! ## Data model -/

/-- Status values returned by the flash driver (fsmc_nand.h); `other`
stands for any status besides the four named ones, hitting the `default`
branches of the source's switches. -/
inductive nand_status where
  | ready
  | error
  | busy
  | timeout_error
  | other
deriving DecidableEq, Repr

/-- Chip geometry (chip_info_t from chip_db.h, geometry fields only). -/
structure chip_info_t where
  page_size : Nat
  block_size : Nat
  size : Nat
deriving DecidableEq, Repr

/-- The session state np_prog_t.  `page_buf` is the list of bytes copied into
`page.buf` since `page.offset` was last reset (see file header). -/
structure np_prog_t where
  addr : Nat
  len : Nat
  addr_is_set : Bool
  page_buf : List Nat
  page_page : Nat
  page_offset : Nat
  bytes_written : Nat
  bytes_ack : Nat
  nand_wr_in_progress : Bool
  nand_timeout : Nat
  chip_info : Option chip_info_t
deriving DecidableEq, Repr

/-- Replies sent through the transport. -/
inductive np_resp_msg where
  | ok
  | error (code : Nat)
  | bad_block (addr : Nat)
  | write_ack (bytes : Nat)
  | id_data
  | data (bytes : List Nat)
deriving DecidableEq, Repr

/-- Observable calls into the flash driver and the bad-block table. -/
inductive np_ext_op where
  | erase_block (page : Nat)
  | write_page (buf : List Nat) (page : Nat) (size : Nat)
  | read_page (page : Nat)
  | read_spare (page : Nat)
  | bb_add (addr : Nat)
deriving DecidableEq, Repr

/-- Oracles for every external collaborator. -/
structure np_env where
  read_status : Nat → nand_status
  erase_status : Nat → nand_status
  read_page_status : Nat → nand_status
  read_spare_status : Nat → nand_status
  spare_marker : Nat → Nat
  page_data : Nat → List Nat
  is_bad : Nat → Bool
  chip_db : Nat → Option chip_info_t

/-- Handler result: C return value, new session state, next status-read
index, replies sent, external operations performed. -/
structure hres where
  ret : Int
  prog : np_prog_t
  rd : Nat
  msgs : List np_resp_msg
  ops : List np_ext_op
deriving DecidableEq, Repr

/-- Result of the stateless helpers (erase / read paths). -/
structure tres where
  ret : Int
  msgs : List np_resp_msg
  ops : List np_ext_op
deriving DecidableEq, Repr

/-! ## Write pipeline (np_nand_handle_status / np_nand_write) -/

/-- np_nand_handle_status: one poll of the in-flight write.  NAND_ERROR falls
through into NAND_READY after reporting a bad block at `prog->addr`;
NAND_TIMEOUT_ERROR hits the `default` branch. -/
def np_nand_handle_status (env : np_env) (p : np_prog_t) (rd : Nat) : hres :=
  match env.read_status rd with
  | .error =>
      ⟨0, { p with nand_wr_in_progress := false, nand_timeout := 0 }, rd + 1,
        [.bad_block p.addr], []⟩
  | .ready =>
      ⟨0, { p with nand_wr_in_progress := false, nand_timeout := 0 }, rd + 1, [], []⟩
  | .busy =>
      if u32 (p.nand_timeout + 1) = NP_NAND_TIMEOUT then
        ⟨-1, { p with nand_wr_in_progress := false, nand_timeout := 0 }, rd + 1, [], []⟩
      else
        ⟨0, { p with nand_timeout := u32 (p.nand_timeout + 1) }, rd + 1, [], []⟩
  | _ =>
      ⟨-1, { p with nand_wr_in_progress := false, nand_timeout := 0 }, rd + 1, [], []⟩

/-- The synchronous wait loop of np_nand_write:
`do { handle_status } while (in_progress)`.  The timeout counter bounds it
by NP_NAND_TIMEOUT iterations, so a fuel of NP_NAND_TIMEOUT + 1 never runs
out. -/
def np_nand_write_wait (env : np_env) : Nat → np_prog_t → Nat → hres
  | 0, p, rd => ⟨-1, p, rd, [], []⟩
  | fuel + 1, p, rd =>
      let h := np_nand_handle_status env p rd
      if h.ret ≠ 0 then ⟨-1, h.prog, h.rd, h.msgs, []⟩
      else if h.prog.nand_wr_in_progress then
        let h2 := np_nand_write_wait env fuel h.prog h.rd
        ⟨h2.ret, h2.prog, h2.rd, h.msgs ++ h2.msgs, []⟩
      else ⟨0, h.prog, h.rd, h.msgs, []⟩

/-- np_nand_write: wait (bounded) for a previous in-flight write, then issue
the page write asynchronously and mark it in flight. -/
def np_nand_write (env : np_env) (chip : chip_info_t) (p : np_prog_t) (rd : Nat) : hres :=
  let w : hres :=
    if p.nand_wr_in_progress then np_nand_write_wait env (NP_NAND_TIMEOUT + 1) p rd
    else ⟨0, p, rd, [], []⟩
  if w.ret ≠ 0 then ⟨-1, w.prog, w.rd, w.msgs, []⟩
  else
    ⟨0, { w.prog with nand_wr_in_progress := true }, w.rd, w.msgs,
      [.write_page w.prog.page_buf w.prog.page_page chip.page_size]⟩

/-! ## Write command handlers -/

/-- np_cmd_nand_write_start.  Note: the final length-alignment check returns
NP_ERR_ADDR_NOT_ALIGN in the source even though its error message reports a
length misalignment. -/
def np_cmd_nand_write_start (chip : chip_info_t) (p : np_prog_t)
    (addr len : Nat) (rd : Nat) : hres :=
  if u32 (addr + len) > chip.size then ⟨NP_ERR_ADDR_EXCEEDED, p, rd, [], []⟩
  else if addr &&& u32_pred chip.page_size ≠ 0 then ⟨NP_ERR_ADDR_NOT_ALIGN, p, rd, [], []⟩
  else if len = 0 then ⟨NP_ERR_LEN_INVALID, p, rd, [], []⟩
  else if len &&& u32_pred chip.page_size ≠ 0 then ⟨NP_ERR_ADDR_NOT_ALIGN, p, rd, [], []⟩
  else
    ⟨0, { p with
            addr := addr, len := len, addr_is_set := true,
            page_page := addr / chip.page_size, page_offset := 0, page_buf := [],
            bytes_written := 0, bytes_ack := 0 }, rd, [.ok], []⟩

/-- Tail of np_cmd_nand_write_data (copy of the fragment part that did not
fit the page into the freshly reset buffer, cumulative byte accounting,
write-ack emission, declared-length check), operating on the intermediate
result `c` of the page-commit step. -/
def np_write_data_finish (chip : chip_info_t) (data : List Nat) (write_len : Nat)
    (c : hres) : hres :=
  if c.ret ≠ 0 then c
  else
    let len := data.length
    let bytes_left := u32sub len write_len
    let p4 : np_prog_t := if bytes_left ≠ 0 then
        { c.prog with page_buf := c.prog.page_buf ++ data.drop write_len,
                      page_offset := c.prog.page_offset + bytes_left }
      else c.prog
    let p5 : np_prog_t := { p4 with bytes_written := u32 (p4.bytes_written + len) }
    if u32sub p5.bytes_written p5.bytes_ack ≥ chip.page_size ∨
        p5.bytes_written = p5.len then
      let p6 := { p5 with bytes_ack := p5.bytes_written }
      if p6.bytes_written > p6.len then
        ⟨NP_ERR_LEN_EXCEEDED, p6, c.rd, c.msgs ++ [.write_ack p5.bytes_written], c.ops⟩
      else
        ⟨0, p6, c.rd, c.msgs ++ [.write_ack p5.bytes_written], c.ops⟩
    else
      if p5.bytes_written > p5.len then
        ⟨NP_ERR_LEN_EXCEEDED, p5, c.rd, c.msgs, c.ops⟩
      else
        ⟨0, p5, c.rd, c.msgs, c.ops⟩

/-- np_cmd_nand_write_data. -/
def np_cmd_nand_write_data (env : np_env) (chip : chip_info_t) (p : np_prog_t)
    (data : List Nat) (rd : Nat) : hres :=
  let len := data.length
  if len + np_write_data_cmd_size > NP_PACKET_BUF_SIZE then
    ⟨NP_ERR_CMD_DATA_SIZE, p, rd, [], []⟩
  else if ¬ p.addr_is_set then ⟨NP_ERR_ADDR_INVALID, p, rd, [], []⟩
  else if p.addr ≥ chip.size then ⟨NP_ERR_ADDR_EXCEEDED, p, rd, [], []⟩
  else
    let write_len := if p.page_offset + len > chip.page_size
      then u32sub chip.page_size p.page_offset else len
    let p1 := { p with page_buf := p.page_buf ++ data.take write_len,
                       page_offset := p.page_offset + write_len }
    let c : hres :=
      if p1.page_offset = chip.page_size then
        let w := np_nand_write env chip p1 rd
        if w.ret ≠ 0 then ⟨NP_ERR_NAND_WR, w.prog, w.rd, w.msgs, w.ops⟩
        else ⟨0, { w.prog with
                     addr := u32 (w.prog.addr + chip.page_size),
                     page_page := u32 (w.prog.page_page + 1),
                     page_offset := 0, page_buf := [] }, w.rd, w.msgs, w.ops⟩
      else ⟨0, p1, rd, [], []⟩
    np_write_data_finish chip data write_len c

/-- np_cmd_nand_write_end: the address-valid flag is cleared before the
page-buffer check. -/
def np_cmd_nand_write_end (p : np_prog_t) (rd : Nat) : hres :=
  let p1 := { p with addr_is_set := false }
  if p1.page_offset ≠ 0 then ⟨NP_ERR_NAND_WR, p1, rd, [], []⟩
  else ⟨0, p1, rd, [.ok], []⟩

/-! ## Erase -/

/-- np_nand_erase (single block): call nand_erase_block and map its status.
NAND_ERROR reports a bad block at `page * page_size` and continues;
NAND_TIMEOUT_ERROR is only logged; any other non-ready status aborts. -/
def np_nand_erase (env : np_env) (chip : chip_info_t) (page : Nat) : tres :=
  match env.erase_status page with
  | .ready => ⟨0, [], [.erase_block page]⟩
  | .error => ⟨0, [.bad_block (u32 (page * chip.page_size))], [.erase_block page]⟩
  | .timeout_error => ⟨0, [], [.erase_block page]⟩
  | _ => ⟨-1, [], [.erase_block page]⟩

/-- The while-loop of _np_cmd_nand_erase.  `len0` is the command's original
length (`erase_cmd->len`), consulted by the full-chip special case.  Each
iteration either exits or advances `addr` by `block_size`, so with a
positive block size the loop runs at most `chip.size` times and the fuel
passed by `_np_cmd_nand_erase` (chip.size + 1) is never exhausted. -/
def np_erase_loop (env : np_env) (chip : chip_info_t) (len0 pib : Nat) :
    Nat → Nat → Nat → Nat → tres
  | 0, _, _, _ => ⟨NP_ERR_INTERNAL, [], []⟩
  | fuel + 1, addr, page, len =>
      if len = 0 then ⟨0, [], []⟩
      else if addr ≥ chip.size then ⟨NP_ERR_ADDR_EXCEEDED, [], []⟩
      else if env.is_bad addr then
        let rest := np_erase_loop env chip len0 pib fuel
          (u32 (addr + chip.block_size)) (u32 (page + pib))
          (if len0 = chip.size then u32sub len chip.block_size else len)
        ⟨rest.ret, .bad_block addr :: rest.msgs, rest.ops⟩
      else
        let er := np_nand_erase env chip page
        if er.ret ≠ 0 then ⟨NP_ERR_NAND_ERASE, er.msgs, er.ops⟩
        else
          let rest := np_erase_loop env chip len0 pib fuel
            (u32 (addr + chip.block_size)) (u32 (page + pib))
            (u32sub len chip.block_size)
          ⟨rest.ret, er.msgs ++ rest.msgs, er.ops ++ rest.ops⟩

/-- _np_cmd_nand_erase: validate, then run the block loop, then send ok. -/
def _np_cmd_nand_erase (env : np_env) (chip : chip_info_t) (addr len : Nat) : tres :=
  if addr &&& u32_pred chip.block_size ≠ 0 then ⟨NP_ERR_ADDR_NOT_ALIGN, [], []⟩
  else if len = 0 then ⟨NP_ERR_LEN_INVALID, [], []⟩
  else if len &&& u32_pred chip.block_size ≠ 0 then ⟨NP_ERR_LEN_NOT_ALIGN, [], []⟩
  else if u32 (addr + len) > chip.size then ⟨NP_ERR_ADDR_EXCEEDED, [], []⟩
  else
    let page := addr / chip.page_size
    let pib := chip.block_size / chip.page_size
    let r := np_erase_loop env chip len pib (chip.size + 1) addr page len
    if r.ret = 0 then ⟨0, r.msgs ++ [.ok], r.ops⟩ else r

/-! ## Read -/

/-- np_nand_read (single page): status mapping mirrors np_nand_erase. -/
def np_nand_read (env : np_env) (addr page : Nat) : tres :=
  match env.read_page_status page with
  | .ready => ⟨0, [], [.read_page page]⟩
  | .error => ⟨0, [.bad_block addr], [.read_page page]⟩
  | .timeout_error => ⟨0, [], [.read_page page]⟩
  | _ => ⟨-1, [], [.read_page page]⟩

/-- Inner streaming loop of _np_cmd_nand_read: chunk the page into data
responses of at most np_tx_data_len bytes.  Returns (msgs, offset, len). -/
def np_read_inner (env : np_env) (chip : chip_info_t) (page : Nat) :
    Nat → Nat → Nat → List np_resp_msg × Nat × Nat
  | 0, offset, len => ([], offset, len)
  | fuel + 1, offset, len =>
      if offset < chip.page_size ∧ len ≠ 0 then
        let wl0 := if u32sub chip.page_size offset ≥ np_tx_data_len
          then np_tx_data_len else u32sub chip.page_size offset
        let wl := if wl0 > len then len else wl0
        let chunk := ((env.page_data page).drop offset).take wl
        let rest := np_read_inner env chip page fuel (offset + wl) (u32sub len wl)
        (.data chunk :: rest.1, rest.2.1, rest.2.2)
      else ([], offset, len)

/-- Outer loop of _np_cmd_nand_read. -/
def np_read_loop (env : np_env) (chip : chip_info_t) :
    Nat → Nat → Nat → Nat → tres
  | 0, _, _, _ => ⟨NP_ERR_INTERNAL, [], []⟩
  | fuel + 1, addr, page, len =>
      if len = 0 then ⟨0, [], []⟩
      else
        let nr := np_nand_read env addr page
        if nr.ret ≠ 0 then ⟨NP_ERR_NAND_RD, nr.msgs, nr.ops⟩
        else
          let inner := np_read_inner env chip page (len + 1) 0 len
          let len' := inner.2.2
          if len' ≠ 0 then
            let addr' := u32 (addr + chip.page_size)
            if addr' ≥ chip.size then
              ⟨NP_ERR_ADDR_EXCEEDED, nr.msgs ++ inner.1, nr.ops⟩
            else
              let rest := np_read_loop env chip fuel addr' (u32 (page + 1)) len'
              ⟨rest.ret, nr.msgs ++ inner.1 ++ rest.msgs, nr.ops ++ rest.ops⟩
          else ⟨0, nr.msgs ++ inner.1, nr.ops⟩

/-- _np_cmd_nand_read: validation then the streaming loop. -/
def _np_cmd_nand_read (env : np_env) (chip : chip_info_t) (addr len : Nat) : tres :=
  if u32 (addr + len) > chip.size then ⟨NP_ERR_ADDR_EXCEEDED, [], []⟩
  else if addr &&& u32_pred chip.page_size ≠ 0 then ⟨NP_ERR_ADDR_NOT_ALIGN, [], []⟩
  else if len = 0 then ⟨NP_ERR_LEN_INVALID, [], []⟩
  else if len &&& u32_pred chip.page_size ≠ 0 then ⟨NP_ERR_LEN_NOT_ALIGN, [], []⟩
  else np_read_loop env chip (len + 1) addr (addr / chip.page_size) len

/-! ## Select, read id, bad-block scan -/

/-- np_cmd_nand_select: on success store the geometry; on failure clear it
and report chip-not-found. -/
def np_cmd_nand_select (env : np_env) (p : np_prog_t) (chip_num : Nat) (rd : Nat) : hres :=
  match env.chip_db chip_num with
  | some ci => ⟨0, { p with chip_info := some ci }, rd, [.ok], []⟩
  | none => ⟨NP_ERR_CHIP_NOT_FOUND, { p with chip_info := none }, rd, [], []⟩

/-- np_cmd_nand_read_id: no session-state mutation; replies with id data. -/
def np_cmd_nand_read_id (p : np_prog_t) (rd : Nat) : hres :=
  ⟨0, p, rd, [.id_data], []⟩

/-- np_read_bad_block_info_from_page: read the spare marker of one page;
a non-0xFF marker reports the block and adds it to the table.
Returns (ret, is_bad, msgs, ops). -/
def np_read_bad_block_info_from_page (env : np_env) (chip : chip_info_t)
    (block page : Nat) : Int × Bool × List np_resp_msg × List np_ext_op :=
  let addr := u32 (block * chip.block_size)
  match env.read_spare_status page with
  | .ready =>
      if env.spare_marker page ≠ NP_NAND_GOOD_BLOCK_MARK then
        (0, true, [.bad_block addr], [.read_spare page, .bb_add addr])
      else (0, false, [], [.read_spare page])
  | _ => (NP_ERR_NAND_RD, false, [], [.read_spare page])

/-- The block loop of _np_cmd_read_bad_blocks (structural on the number of
remaining blocks). -/
def np_scan_loop (env : np_env) (chip : chip_info_t) (page_num : Nat) :
    Nat → Nat → tres
  | 0, _ => ⟨0, [], []⟩
  | b + 1, block =>
      let page := u32 (block * page_num)
      let r1 := np_read_bad_block_info_from_page env chip block page
      if r1.1 ≠ 0 then ⟨-1, r1.2.2.1, r1.2.2.2⟩
      else if r1.2.1 then
        let rest := np_scan_loop env chip page_num b (block + 1)
        ⟨rest.ret, r1.2.2.1 ++ rest.msgs, r1.2.2.2 ++ rest.ops⟩
      else
        let r2 := np_read_bad_block_info_from_page env chip block (u32 (page + 1))
        if r2.1 ≠ 0 then ⟨-1, r1.2.2.1 ++ r2.2.2.1, r1.2.2.2 ++ r2.2.2.2⟩
        else
          let rest := np_scan_loop env chip page_num b (block + 1)
          ⟨rest.ret, r1.2.2.1 ++ r2.2.2.1 ++ rest.msgs,
            r1.2.2.2 ++ r2.2.2.2 ++ rest.ops⟩

/-- _np_cmd_read_bad_blocks. -/
def _np_cmd_read_bad_blocks (env : np_env) (chip : chip_info_t) : tres :=
  let block_num := chip.size / chip.block_size
  let page_num := chip.block_size / chip.page_size
  let r := np_scan_loop env chip page_num block_num 0
  if r.ret = 0 then ⟨0, r.msgs ++ [.ok], r.ops⟩ else r

/-! ## Command dispatcher -/

/-- Host commands.  `unknown k` stands for any out-of-range opcode
(its opcode is 8 + k, at or past NP_CMD_NAND_LAST). -/
inductive np_cmd where
  | read_id
  | erase (addr len : Nat)
  | read (addr len : Nat)
  | write_s (addr len : Nat)
  | write_d (data : List Nat)
  | write_e
  | select (chip_num : Nat)
  | read_bb
  | unknown (k : Nat)
deriving DecidableEq, Repr

/-- The opcode of a command (np_cmd_code_t). -/
def np_cmd.code : np_cmd → Nat
  | .read_id => 0
  | .erase _ _ => 1
  | .read _ _ => 2
  | .write_s _ _ => 3
  | .write_d _ => 4
  | .write_e => 5
  | .select _ => 6
  | .read_bb => 7
  | .unknown k => 8 + k

/-- The handler table dispatch (`cmd_handler[cmd->code].exec`).  The `none`
branches of the geometry-using handlers are unreachable: np_cmd_handler
rejects every command except select while no chip is selected (the C would
dereference a null pointer there). -/
def np_cmd_exec (env : np_env) (p : np_prog_t) (c : np_cmd) (rd : Nat) : hres :=
  match c with
  | .read_id => np_cmd_nand_read_id p rd
  | .erase a l =>
      match p.chip_info with
      | some chip =>
          let r := _np_cmd_nand_erase env chip a l
          ⟨r.ret, p, rd, r.msgs, r.ops⟩
      | none => ⟨NP_ERR_INTERNAL, p, rd, [], []⟩
  | .read a l =>
      match p.chip_info with
      | some chip =>
          let r := _np_cmd_nand_read env chip a l
          ⟨r.ret, p, rd, r.msgs, r.ops⟩
      | none => ⟨NP_ERR_INTERNAL, p, rd, [], []⟩
  | .write_s a l =>
      match p.chip_info with
      | some chip => np_cmd_nand_write_start chip p a l rd
      | none => ⟨NP_ERR_INTERNAL, p, rd, [], []⟩
  | .write_d d =>
      match p.chip_info with
      | some chip => np_cmd_nand_write_data env chip p d rd
      | none => ⟨NP_ERR_INTERNAL, p, rd, [], []⟩
  | .write_e => np_cmd_nand_write_end p rd
  | .select n => np_cmd_nand_select env p n rd
  | .read_bb =>
      match p.chip_info with
      | some chip =>
          let r := _np_cmd_read_bad_blocks env chip
          ⟨r.ret, p, rd, r.msgs, r.ops⟩
      | none => ⟨NP_ERR_INTERNAL, p, rd, [], []⟩
  | .unknown _ => ⟨NP_ERR_INTERNAL, p, rd, [], []⟩

/-- Dispatcher result; `invoked` records whether `cmd_handler[code].exec`
was reached. -/
structure dres where
  ret : Int
  prog : np_prog_t
  rd : Nat
  msgs : List np_resp_msg
  ops : List np_ext_op
  invoked : Bool
deriving DecidableEq, Repr

/-- np_cmd_handler: reject everything but select while no chip is selected;
then reject out-of-range opcodes; then dispatch. -/
def np_cmd_handler (env : np_env) (p : np_prog_t) (c : np_cmd) (rd : Nat) : dres :=
  if p.chip_info = none ∧ c.code ≠ 6 then
    ⟨NP_ERR_CHIP_NOT_SEL, p, rd, [], [], false⟩
  else if ¬ (c.code < 8) then
    ⟨NP_ERR_CMD_INVALID, p, rd, [], [], false⟩
  else
    let h := np_cmd_exec env p c rd
    ⟨h.ret, h.prog, h.rd, h.msgs, h.ops, true⟩

/-- np_packet_handler's drain loop over a list of pending commands: handle
each, then send an error-status response carrying the uint8 cast of the
negated return code when the handler failed. -/
def np_run_cmds (env : np_env) :
    List np_cmd → np_prog_t → Nat → np_prog_t × Nat × List np_resp_msg × List np_ext_op
  | [], p, rd => (p, rd, [], [])
  | c :: cs, p, rd =>
      let d := np_cmd_handler env p c rd
      let em : List np_resp_msg := if d.ret < 0 then [.error (u8i (-d.ret))] else []
      let rest := np_run_cmds env cs d.prog d.rd
      (rest.1, rest.2.1, d.msgs ++ em ++ rest.2.2.1, d.ops ++ rest.2.2.2)

/-- np_nand_handler: the per-tick completion poller.  On a failed poll it
sends an error status; the source passes NP_ERR_NAND_WR itself (not its
negation) into the uint8 parameter. -/
def np_nand_handler (env : np_env) (p : np_prog_t) (rd : Nat) :
    np_prog_t × Nat × List np_resp_msg :=
  if p.nand_wr_in_progress then
    let h := np_nand_handle_status env p rd
    if h.ret ≠ 0 then (h.prog, h.rd, h.msgs ++ [.error (u8i NP_ERR_NAND_WR)])
    else (h.prog, h.rd, h.msgs)
  else (p, rd, [])

/-- The bytes handed to the asynchronous page-write path, in order. -/
def committed (ops : List np_ext_op) : List Nat :=
  (ops.filterMap fun o => match o with
    | .write_page b _ _ => some b
    | _ => none).flatten

/-- The values carried by the write-ack responses of a message trace. -/
def acks (ms : List np_resp_msg) : List Nat :=
  ms.filterMap fun m => match m with
    | .write_ack b => some b
    | _ => none

/-- Whether a message is a bad-block report. -/
def is_bad_block_msg : np_resp_msg → Bool
  | .bad_block _ => true
  | _ => false

/-! ## Arithmetic helper lemmas -/

theorem u32_eq {x : Nat} (h : x < 4294967296) : u32 x = x := Nat.mod_eq_of_lt h

theorem u32sub_eq {a b : Nat} (hb : b ≤ a) (ha : a < 4294967296) :
    u32sub a b = a - b := by
  unfold u32sub
  have hb' : b < 4294967296 := lt_of_le_of_lt hb ha
  rw [Nat.mod_eq_of_lt hb']
  omega

theorem u32_pred_pow2 {k : Nat} (hk : k < 32) : u32_pred (2 ^ k) = 2 ^ k - 1 := by
  unfold u32_pred u32
  have h1 : 2 ^ k ≤ 2 ^ 31 := Nat.pow_le_pow_right (by omega) (by omega)
  have h2 : (0 : Nat) < 2 ^ k := Nat.pos_pow_of_pos _ (by omega)
  omega

/-- Alignment checks of the source (`x & (2^k - 1)`) pass exactly on
multiples of the power of two. -/
theorem mask_eq_zero_of_dvd {x k : Nat} (hk : k < 32) (h : 2 ^ k ∣ x) :
    x &&& u32_pred (2 ^ k) = 0 := by
  rw [u32_pred_pow2 hk, Nat.and_pow_two_sub_one_eq_mod]
  obtain ⟨c, rfl⟩ := h
  exact Nat.mul_mod_right _ _

/-- A structure update that changes nothing. -/
theorem chip_none_update {p : np_prog_t} (h : p.chip_info = none) :
    { p with chip_info := none } = p := by
  cases p
  simp_all

/-! ## np_nand_write under an always-ready status oracle -/

theorem np_nand_write_ready {env : np_env} {chip : chip_info_t} {p : np_prog_t} {rd : Nat}
    (henv : ∀ i, env.read_status i = nand_status.ready) :
    np_nand_write env chip p rd =
      ⟨0, { p with
              nand_wr_in_progress := true,
              nand_timeout := if p.nand_wr_in_progress then 0 else p.nand_timeout },
        rd + (if p.nand_wr_in_progress then 1 else 0), [],
        [.write_page p.page_buf p.page_page chip.page_size]⟩ := by
  cases hp : p.nand_wr_in_progress with
  | false =>
      simp [np_nand_write, hp]
  | true =>
      have hw : np_nand_write_wait env (NP_NAND_TIMEOUT + 1) p rd =
          ⟨0, { p with nand_wr_in_progress := false, nand_timeout := 0 }, rd + 1, [], []⟩ := by
        rw [np_nand_write_wait]
        simp [np_nand_handle_status, henv rd]
      simp [np_nand_write, hp, hw]

/-! ## Write-session invariant -/

/-- Geometry and session-parameter side conditions of a valid write session
(start address `addr0`, declared length `L`).  They hold for every write
start that passes validation on a real (power-of-two) geometry. -/
structure WGeom (chip : chip_info_t) (addr0 L : Nat) : Prop where
  hps : 0 < chip.page_size
  hpsz : chip.page_size ≤ chip.size
  hdva : chip.page_size ∣ addr0
  hdvL : chip.page_size ∣ L
  hbound : addr0 + L ≤ chip.size
  hsize : chip.size < 4294967296

/-- State invariant of the write session after `n` payload bytes have been
consumed. -/
structure WInv (chip : chip_info_t) (addr0 L n : Nat) (p : np_prog_t) : Prop where
  hchip : p.chip_info = some chip
  hset : p.addr_is_set = true
  hlen : p.len = L
  hbw : p.bytes_written = n
  hbuf : p.page_buf.length = p.page_offset
  hoff : p.page_offset < chip.page_size
  hack : p.bytes_ack ≤ n
  htime : p.nand_timeout = 0
  pages : ∃ q, n = chip.page_size * q + p.page_offset ∧
    p.addr = addr0 + chip.page_size * q
  hpage : p.page_page = p.addr / chip.page_size

/-- Explicit form of np_write_data_finish on a successful commit result,
with the uint32 wraps resolved by the stated bounds. -/
theorem np_write_data_finish_eq (chip : chip_info_t) (data : List Nat)
    (write_len : Nat) (pc : np_prog_t) (rdc : Nat) (ms : List np_resp_msg)
    (os : List np_ext_op) (hwl : write_len ≤ data.length)
    (hbw : pc.bytes_written + data.length < 4294967296)
    (hack : pc.bytes_ack ≤ pc.bytes_written) :
    np_write_data_finish chip data write_len ⟨0, pc, rdc, ms, os⟩ =
      (let bl := data.length - write_len
       let p4 : np_prog_t := if bl ≠ 0 then
          { pc with page_buf := pc.page_buf ++ data.drop write_len,
                    page_offset := pc.page_offset + bl } else pc
       let nv := pc.bytes_written + data.length
       if chip.page_size ≤ nv - pc.bytes_ack ∨ nv = pc.len then
         if nv > pc.len then
           ⟨NP_ERR_LEN_EXCEEDED, { p4 with bytes_written := nv, bytes_ack := nv }, rdc,
             ms ++ [.write_ack nv], os⟩
         else ⟨0, { p4 with bytes_written := nv, bytes_ack := nv }, rdc,
             ms ++ [.write_ack nv], os⟩
       else
         if nv > pc.len then
           ⟨NP_ERR_LEN_EXCEEDED, { p4 with bytes_written := nv }, rdc, ms, os⟩
         else ⟨0, { p4 with bytes_written := nv }, rdc, ms, os⟩) := by
  have hd : data.length < 4294967296 := by omega
  have h1 : u32sub data.length write_len = data.length - write_len :=
    u32sub_eq hwl hd
  have h2 : u32 (pc.bytes_written + data.length) =
      pc.bytes_written + data.length := u32_eq hbw
  have h3 : u32sub (pc.bytes_written + data.length) pc.bytes_ack =
      pc.bytes_written + data.length - pc.bytes_ack :=
    u32sub_eq (by omega) hbw
  unfold np_write_data_finish
  by_cases hbl : data.length - write_len = 0 <;>
    simp [h1, hbl, h2, h3, ge_iff_le]

/-- The session state after copying `wl` fragment bytes at the current
offset (the first memcpy of np_cmd_nand_write_data). -/
@[simps]
def np_fill (p : np_prog_t) (f : List Nat) (wl : Nat) : np_prog_t :=
  { p with page_buf := p.page_buf ++ f.take wl, page_offset := p.page_offset + wl }

/-- The session state after a full page was handed to np_nand_write and the
cursor advanced (the commit branch of np_cmd_nand_write_data). -/
@[simps]
def np_commit (chip : chip_info_t) (p : np_prog_t) : np_prog_t :=
  { p with nand_wr_in_progress := true,
           addr := u32 (p.addr + chip.page_size),
           page_page := u32 (p.page_page + 1),
           page_offset := 0, page_buf := [] }

/-- One write-data command under the session invariant: it succeeds, the
invariant advances by the fragment length, the bytes handed to the page-write
path plus the buffered remainder extend by exactly the fragment, and the
write-ack emission follows the source's condition. -/
theorem np_write_data_step {env : np_env} {chip : chip_info_t}
    {addr0 L n : Nat} {p : np_prog_t} {f : List Nat} {rd : Nat}
    (hG : WGeom chip addr0 L) (hI : WInv chip addr0 L n p)
    (henv : ∀ i, env.read_status i = nand_status.ready)
    (hf0 : 0 < f.length)
    (hfp : f.length + np_write_data_cmd_size ≤ NP_PACKET_BUF_SIZE)
    (hfps : f.length ≤ chip.page_size)
    (hnL : n + f.length ≤ L) :
    (np_cmd_nand_write_data env chip p f rd).ret = 0 ∧
    WInv chip addr0 L (n + f.length) (np_cmd_nand_write_data env chip p f rd).prog ∧
    committed (np_cmd_nand_write_data env chip p f rd).ops ++
      (np_cmd_nand_write_data env chip p f rd).prog.page_buf = p.page_buf ++ f ∧
    (np_cmd_nand_write_data env chip p f rd).msgs =
      (if chip.page_size ≤ n + f.length - p.bytes_ack ∨ n + f.length = L
       then [np_resp_msg.write_ack (n + f.length)] else []) ∧
    (np_cmd_nand_write_data env chip p f rd).prog.bytes_ack =
      (if chip.page_size ≤ n + f.length - p.bytes_ack ∨ n + f.length = L
       then n + f.length else p.bytes_ack) := by
  obtain ⟨hps, hpsz, hdva, hdvL, hbound, hsize⟩ := hG
  obtain ⟨hchip, hset, hlen, hbw, hbuf, hoff, hack, htime, ⟨q, hq, haddr⟩, hpage⟩ := hI
  have hm : chip.page_size * q ≤ n := by omega
  have haddrlt : p.addr < chip.size := by omega
  have hc1 : ¬ (f.length + np_write_data_cmd_size > NP_PACKET_BUF_SIZE) := by omega
  have hc3 : ¬ (p.addr ≥ chip.size) := by omega
  have hng : ¬ (n + f.length > L) := by omega
  rcases Nat.lt_trichotomy (p.page_offset + f.length) chip.page_size with hlt | hmid | hgt
  · -- the fragment fits strictly inside the current page: no commit
    have hwlc : ¬ (p.page_offset + f.length > chip.page_size) := by omega
    have hne : ¬ (p.page_offset + f.length = chip.page_size) := by omega
    have heq : np_cmd_nand_write_data env chip p f rd =
        np_write_data_finish chip f f.length ⟨0, np_fill p f f.length, rd, [], []⟩ := by
      simp [np_cmd_nand_write_data, np_fill, hc1, hset, hc3, hwlc, hne]
    have hmain := np_write_data_finish_eq chip f f.length (np_fill p f f.length) rd [] []
      le_rfl (by simp [np_fill]; omega) (by simp [np_fill]; omega)
    rw [heq, hmain]
    by_cases hA : chip.page_size ≤ n + f.length - p.bytes_ack ∨ n + f.length = L
    · simp only [np_fill_bytes_written, np_fill_bytes_ack, np_fill_len, hbw, hlen,
        Nat.sub_self, ne_eq, not_true_eq_false, if_false, ite_false, hA, if_true,
        ite_true, gt_iff_lt, if_neg hng]
      refine ⟨trivial, ⟨?_, ?_, ?_, ?_, ?_, ?_, ?_, ?_, ⟨q, ?_, ?_⟩, ?_⟩, ?_, ?_, ?_⟩ <;>
        first
          | rfl
          | trivial
          | (simp [np_fill, committed, hchip, hset, hbuf, htime, haddr, hpage]; done)
          | (simp [np_fill]; omega)
    · simp only [np_fill_bytes_written, np_fill_bytes_ack, np_fill_len, hbw, hlen,
        Nat.sub_self, ne_eq, not_true_eq_false, if_false, ite_false, hA, ite_true,
        gt_iff_lt, if_neg hng]
      refine ⟨trivial, ⟨?_, ?_, ?_, ?_, ?_, ?_, ?_, ?_, ⟨q, ?_, ?_⟩, ?_⟩, ?_, ?_, ?_⟩ <;>
        first
          | rfl
          | trivial
          | (simp [np_fill, committed, hchip, hset, hbuf, htime, haddr, hpage]; done)
          | (simp [np_fill]; omega)
  · -- the fragment exactly fills the page: one commit, no remainder
    have hwlc : ¬ (p.page_offset + f.length > chip.page_size) := by omega
    have hpglt : p.page_page + 1 < 4294967296 := by
      have h1 : p.page_page ≤ p.addr := hpage ▸ Nat.div_le_self _ _
      omega
    have hw := @np_nand_write_ready env chip (np_fill p f f.length) rd henv
    simp only [np_fill, List.take_length, hmid, hset, htime, ite_self] at hw
    have heq : np_cmd_nand_write_data env chip p f rd =
        np_write_data_finish chip f f.length
          ⟨0, np_commit chip (np_fill p f f.length),
            rd + (if p.nand_wr_in_progress then 1 else 0), [],
            [.write_page (p.page_buf ++ f) p.page_page chip.page_size]⟩ := by
      simp [np_cmd_nand_write_data, hc1, hset, hc3, hwlc, hmid, hw, np_fill,
        np_commit, htime]
    have hmain := np_write_data_finish_eq chip f f.length
      (np_commit chip (np_fill p f f.length))
      (rd + (if p.nand_wr_in_progress then 1 else 0)) []
      [.write_page (p.page_buf ++ f) p.page_page chip.page_size]
      le_rfl (by simp [np_commit, np_fill, hbw]; omega)
      (by simp [np_commit, np_fill, hbw]; omega)
    rw [heq, hmain]
    have hu1 : u32 (p.addr + chip.page_size) = p.addr + chip.page_size :=
      u32_eq (by omega)
    have hu2 : u32 (p.page_page + 1) = p.page_page + 1 := u32_eq hpglt
    by_cases hA : chip.page_size ≤ n + f.length - p.bytes_ack ∨ n + f.length = L <;>
      simp only [np_commit_bytes_written, np_commit_bytes_ack, np_commit_len,
        np_fill_bytes_written, np_fill_bytes_ack, np_fill_len, hbw, hlen,
        Nat.sub_self, ne_eq, not_true_eq_false, if_false, ite_false, hA, if_true,
        ite_true, gt_iff_lt, if_neg hng] <;>
      refine ⟨trivial, ⟨?_, ?_, ?_, ?_, ?_, ?_, ?_, ?_, ⟨q + 1, ?_, ?_⟩, ?_⟩,
        ?_, ?_, ?_⟩ <;>
      first
        | rfl
        | trivial
        | (simp [np_commit, np_fill, committed, hchip, hset, hbuf, htime]; done)
        | (simp [np_commit, np_fill]; omega)
        | (simp [np_commit, np_fill, hu1, Nat.mul_succ]; omega)
        | (simp [np_commit, np_fill, hu1, hu2, hpage, Nat.add_div_right _ hps]; done)
        | (simp [np_commit, np_fill, hu1, hpage, Nat.add_div_right _ hps,
            u32_eq (hpage ▸ hpglt)]; done)
  · -- the fragment crosses the page boundary: commit, then copy the rest
    have hpglt : p.page_page + 1 < 4294967296 := by
      have h1 : p.page_page ≤ p.addr := hpage ▸ Nat.div_le_self _ _
      omega
    have hwl32 : u32sub chip.page_size p.page_offset =
        chip.page_size - p.page_offset := u32sub_eq (by omega) (by omega)
    have hofe : p.page_offset + (chip.page_size - p.page_offset) = chip.page_size := by
      omega
    have hw := @np_nand_write_ready env chip
      (np_fill p f (chip.page_size - p.page_offset)) rd henv
    simp only [np_fill, hofe, hset, htime, ite_self] at hw
    have heq : np_cmd_nand_write_data env chip p f rd =
        np_write_data_finish chip f (chip.page_size - p.page_offset)
          ⟨0, np_commit chip (np_fill p f (chip.page_size - p.page_offset)),
            rd + (if p.nand_wr_in_progress then 1 else 0), [],
            [.write_page (p.page_buf ++ f.take (chip.page_size - p.page_offset))
              p.page_page chip.page_size]⟩ := by
      simp [np_cmd_nand_write_data, hc1, hset, hc3, hgt, hwl32, hofe, hw, np_fill,
        np_commit, htime]
    have hmain := np_write_data_finish_eq chip f (chip.page_size - p.page_offset)
      (np_commit chip (np_fill p f (chip.page_size - p.page_offset)))
      (rd + (if p.nand_wr_in_progress then 1 else 0)) []
      [.write_page (p.page_buf ++ f.take (chip.page_size - p.page_offset))
        p.page_page chip.page_size]
      (by omega) (by simp [np_commit, np_fill, hbw]; omega)
      (by simp [np_commit, np_fill, hbw]; omega)
    rw [heq, hmain]
    have hbl : f.length - (chip.page_size - p.page_offset) ≠ 0 := by omega
    have hu1 : u32 (p.addr + chip.page_size) = p.addr + chip.page_size :=
      u32_eq (by omega)
    by_cases hA : chip.page_size ≤ n + f.length - p.bytes_ack ∨ n + f.length = L <;>
      simp only [np_commit_bytes_written, np_commit_bytes_ack, np_commit_len,
        np_fill_bytes_written, np_fill_bytes_ack, np_fill_len, hbw, hlen, hbl,
        ne_eq, not_false_eq_true, if_true, ite_true, hA, if_false, ite_false,
        gt_iff_lt, if_neg hng, not_true_eq_false] <;>
      refine ⟨trivial, ⟨?_, ?_, ?_, ?_, ?_, ?_, ?_, ?_, ⟨q + 1, ?_, ?_⟩, ?_⟩,
        ?_, ?_, ?_⟩ <;>
      first
        | rfl
        | trivial
        | (simp [np_commit, np_fill, committed, hchip, hset, hbuf, htime]; done)
        | (simp [np_commit, np_fill]; omega)
        | (simp [np_commit, np_fill, hu1, Nat.mul_succ]; omega)
        | (simp [np_commit, np_fill, hu1, hpage, Nat.add_div_right _ hps,
            u32_eq (hpage ▸ hpglt)]; done)

theorem committed_append (a b : List np_ext_op) :
    committed (a ++ b) = committed a ++ committed b := by
  simp [committed, List.filterMap_append]

theorem acks_append (a b : List np_resp_msg) :
    acks (a ++ b) = acks a ++ acks b := by
  simp [acks, List.filterMap_append]

/-- Dispatching a write-data command with a chip selected reaches
np_cmd_nand_write_data. -/
theorem np_cmd_handler_write_d {env : np_env} {chip : chip_info_t}
    {p : np_prog_t} {f : List Nat} {rd : Nat} (hchip : p.chip_info = some chip) :
    np_cmd_handler env p (.write_d f) rd =
      ⟨(np_cmd_nand_write_data env chip p f rd).ret,
        (np_cmd_nand_write_data env chip p f rd).prog,
        (np_cmd_nand_write_data env chip p f rd).rd,
        (np_cmd_nand_write_data env chip p f rd).msgs,
        (np_cmd_nand_write_data env chip p f rd).ops, true⟩ := by
  simp [np_cmd_handler, np_cmd_exec, np_cmd.code, hchip]

/-- Folding a list of write-data commands through the dispatcher: the
session invariant advances by the total payload length, the committed bytes
plus the buffered remainder extend by the concatenated payloads, and the
write-ack values are strictly within the consumed range, non-decreasing,
ending at L when the payloads complete the declared length. -/
theorem np_run_write_d {env : np_env} {chip : chip_info_t} {addr0 L : Nat}
    (hG : WGeom chip addr0 L)
    (henv : ∀ i, env.read_status i = nand_status.ready) :
    ∀ (fs : List (List Nat)) (n : Nat) (p : np_prog_t) (rd : Nat),
    WInv chip addr0 L n p →
    (∀ f ∈ fs, 0 < f.length ∧
      f.length + np_write_data_cmd_size ≤ NP_PACKET_BUF_SIZE ∧
      f.length ≤ chip.page_size) →
    n + (fs.map List.length).sum ≤ L →
    WInv chip addr0 L (n + (fs.map List.length).sum)
      (np_run_cmds env (fs.map np_cmd.write_d) p rd).1 ∧
    committed (np_run_cmds env (fs.map np_cmd.write_d) p rd).2.2.2 ++
      (np_run_cmds env (fs.map np_cmd.write_d) p rd).1.page_buf =
      p.page_buf ++ fs.flatten ∧
    List.Chain' (· ≤ ·) (acks (np_run_cmds env (fs.map np_cmd.write_d) p rd).2.2.1) ∧
    (∀ a ∈ acks (np_run_cmds env (fs.map np_cmd.write_d) p rd).2.2.1,
      n < a ∧ a ≤ n + (fs.map List.length).sum) ∧
    (n + (fs.map List.length).sum = L → fs ≠ [] →
      (acks (np_run_cmds env (fs.map np_cmd.write_d) p rd).2.2.1).getLast? =
        some L) := by
  intro fs
  induction fs with
  | nil =>
      intro n p rd hI hfs hsum
      simp [np_run_cmds, acks]
      exact ⟨hI, rfl⟩
  | cons f fs ih =>
      intro n p rd hI hfs hsum
      obtain ⟨hf0, hfp, hfps⟩ := hfs f (by simp)
      have hsum' : n + f.length + (fs.map List.length).sum ≤ L := by
        simp at hsum; omega
      have hstep := @np_write_data_step env chip addr0 L n p f rd hG hI henv hf0 hfp
        hfps (by omega)
      obtain ⟨hret, hInv', hcomm, hmsgs, hackeq⟩ := hstep
      have hrest := ih (n + f.length)
        (np_cmd_nand_write_data env chip p f rd).prog
        (np_cmd_nand_write_data env chip p f rd).rd hInv'
        (fun g hg => hfs g (by simp [hg])) hsum'
      obtain ⟨hI2, hcomm2, hchain2, hmem2, hlast2⟩ := hrest
      have hrun : np_run_cmds env ((f :: fs).map np_cmd.write_d) p rd =
          ((np_run_cmds env (fs.map np_cmd.write_d)
              (np_cmd_nand_write_data env chip p f rd).prog
              (np_cmd_nand_write_data env chip p f rd).rd).1,
            (np_run_cmds env (fs.map np_cmd.write_d)
              (np_cmd_nand_write_data env chip p f rd).prog
              (np_cmd_nand_write_data env chip p f rd).rd).2.1,
            (np_cmd_nand_write_data env chip p f rd).msgs ++
              (np_run_cmds env (fs.map np_cmd.write_d)
                (np_cmd_nand_write_data env chip p f rd).prog
                (np_cmd_nand_write_data env chip p f rd).rd).2.2.1,
            (np_cmd_nand_write_data env chip p f rd).ops ++
              (np_run_cmds env (fs.map np_cmd.write_d)
                (np_cmd_nand_write_data env chip p f rd).prog
                (np_cmd_nand_write_data env chip p f rd).rd).2.2.2) := by
        simp only [List.map_cons, np_run_cmds, np_cmd_handler_write_d hI.hchip]
        simp [hret]
      rw [hrun]
      have hsum_eq : n + ((f :: fs).map List.length).sum =
          n + f.length + (fs.map List.length).sum := by simp; omega
      refine ⟨by rw [hsum_eq]; exact hI2, ?_, ?_, ?_, ?_⟩
      · rw [committed_append, List.append_assoc, hcomm2, ← List.append_assoc,
          hcomm, List.flatten_cons, List.append_assoc]
      · rw [acks_append]
        rw [List.chain'_append]
        refine ⟨?_, hchain2, ?_⟩
        · rw [hmsgs]
          split <;> simp [acks]
        · intro x hx y hy
          have hxv : x = n + f.length := by
            rw [hmsgs] at hx
            revert hx
            split <;> simp_all [acks]
          have hy' : y ∈ acks (np_run_cmds env (fs.map np_cmd.write_d)
              (np_cmd_nand_write_data env chip p f rd).prog
              (np_cmd_nand_write_data env chip p f rd).rd).2.2.1 :=
            List.mem_of_mem_head? hy
          have := (hmem2 y hy').1
          omega
      · intro a ha
        rw [acks_append] at ha
        rcases List.mem_append.mp ha with h | h
        · rw [hmsgs] at h
          have hxv : a = n + f.length := by
            revert h
            split <;> simp [acks]
          refine ⟨by omega, ?_⟩
          simp only [List.map_cons, List.sum_cons]
          omega
        · have hm2 := hmem2 a h
          refine ⟨by omega, ?_⟩
          simp only [List.map_cons, List.sum_cons]
          omega
      · intro htot _
        rw [acks_append]
        rcases List.eq_nil_or_concat fs with hnil | _
        · subst hnil
          have : acks (np_run_cmds env (([] : List (List Nat)).map np_cmd.write_d)
              (np_cmd_nand_write_data env chip p f rd).prog
              (np_cmd_nand_write_data env chip p f rd).rd).2.2.1 = [] := by
            simp [np_run_cmds, acks]
          rw [this, List.append_nil, hmsgs]
          have hA : n + f.length = L := by simp at htot; omega
          rw [if_pos (Or.inr hA)]
          simp [acks, hA]
        · have hfs_ne : fs ≠ [] := by
            rename_i hcat
            obtain ⟨l, a, rfl⟩ := hcat
            simp
          have hlast := hlast2 (by simp at htot ⊢; omega) hfs_ne
          rw [List.getLast?_append_of_ne_nil]
          · exact hlast
          · intro hnil
            rw [hnil] at hlast
            simp at hlast

/-- A write-start with page-aligned address and length, in bounds and
non-empty, passes validation and resets the session cursor and counters. -/
theorem np_write_start_ok {chip : chip_info_t} {p : np_prog_t}
    {addr0 L k rd : Nat}
    (hps : chip.page_size = 2 ^ k) (hk : k < 32)
    (hdva : 2 ^ k ∣ addr0) (hdvL : 2 ^ k ∣ L) (hL0 : 0 < L)
    (hbound : addr0 + L ≤ chip.size) (hsize : chip.size < 4294967296) :
    np_cmd_nand_write_start chip p addr0 L rd =
      ⟨0, { p with
              addr := addr0, len := L, addr_is_set := true,
              page_page := addr0 / chip.page_size, page_offset := 0,
              page_buf := [], bytes_written := 0, bytes_ack := 0 },
        rd, [.ok], []⟩ := by
  have h1 : u32 (addr0 + L) = addr0 + L := u32_eq (by omega)
  have h2 : addr0 &&& u32_pred chip.page_size = 0 := by
    rw [hps]; exact mask_eq_zero_of_dvd hk hdva
  have h3 : L &&& u32_pred chip.page_size = 0 := by
    rw [hps]; exact mask_eq_zero_of_dvd hk hdvL
  have h4 : ¬ (addr0 + L > chip.size) := by omega
  have h5 : ¬ (L = 0) := by omega
  simp only [np_cmd_nand_write_start, h1, h2, h3]
  simp [h4, h5]

/-- The geometry side conditions hold for any power-of-two page size and a
validated (aligned, non-empty, in-bounds) write window. -/
theorem WGeom_of_pow2 {chip : chip_info_t} {addr0 L k : Nat}
    (hps : chip.page_size = 2 ^ k)
    (hdva : 2 ^ k ∣ addr0) (hdvL : 2 ^ k ∣ L) (hL0 : 0 < L)
    (hbound : addr0 + L ≤ chip.size) (hsize : chip.size < 4294967296) :
    WGeom chip addr0 L := by
  have hple : 2 ^ k ≤ L := Nat.le_of_dvd hL0 hdvL
  exact ⟨by rw [hps]; exact Nat.pos_pow_of_pos _ (by omega),
    by rw [hps]; omega, by rw [hps]; exact hdva, by rw [hps]; exact hdvL,
    hbound, hsize⟩

/-- The state left by a successful write-start satisfies the session
invariant at zero consumed bytes. -/
theorem WInv_start {chip : chip_info_t} {p : np_prog_t} {addr0 L : Nat}
    (hchip : p.chip_info = some chip) (ht0 : p.nand_timeout = 0)
    (hps : 0 < chip.page_size) :
    WInv chip addr0 L 0
      { p with
          addr := addr0, len := L, addr_is_set := true,
          page_page := addr0 / chip.page_size, page_offset := 0,
          page_buf := [], bytes_written := 0, bytes_ack := 0 } := by
  refine ⟨hchip, rfl, rfl, rfl, rfl, hps, le_rfl, ht0, ⟨0, by simp, by simp⟩, rfl⟩

/-- C1: for every write sequence of a successful write-start with length L
followed by write-data commands whose payload lengths sum to L, the bytes
handed to the asynchronous page-write path equal exactly the concatenation
of the submitted payload bytes, in order, regardless of fragmentation. -/
theorem C1_fragmentation_invariance
    (env : np_env) (chip : chip_info_t) (p0 : np_prog_t) (rd0 : Nat)
    (addr0 L k : Nat) (fs : List (List Nat))
    (hps : chip.page_size = 2 ^ k) (hk : k < 32)
    (ha : 2 ^ k ∣ addr0) (hL : 2 ^ k ∣ L) (hL0 : 0 < L)
    (hbound : addr0 + L ≤ chip.size) (hsize : chip.size < 4294967296)
    (henv : ∀ i, env.read_status i = nand_status.ready)
    (hchip : p0.chip_info = some chip) (ht0 : p0.nand_timeout = 0)
    (hfs : ∀ f ∈ fs, 0 < f.length ∧
      f.length + np_write_data_cmd_size ≤ NP_PACKET_BUF_SIZE ∧
      f.length ≤ chip.page_size)
    (hsum : (fs.map List.length).sum = L) :
    committed (np_run_cmds env
      (np_cmd.write_s addr0 L :: fs.map np_cmd.write_d) p0 rd0).2.2.2 =
      fs.flatten := by
  have hG := WGeom_of_pow2 hps ha hL hL0 hbound hsize
  have hstart := @np_write_start_ok chip p0 addr0 L k rd0 hps hk ha hL hL0 hbound hsize
  have hI0 := @WInv_start chip p0 addr0 L hchip ht0 hG.hps
  generalize hp1 : ({ p0 with
      addr := addr0, len := L, addr_is_set := true,
      page_page := addr0 / chip.page_size, page_offset := 0,
      page_buf := [], bytes_written := 0, bytes_ack := 0 } : np_prog_t) = p1
    at hstart hI0
  have hhandler : np_cmd_handler env p0 (np_cmd.write_s addr0 L) rd0 =
      ⟨0, p1, rd0, [.ok], [], true⟩ := by
    simp [np_cmd_handler, np_cmd_exec, np_cmd.code, hchip, hstart]
  have hrest := np_run_write_d hG henv fs 0 p1 rd0 hI0 hfs (by omega)
  obtain ⟨hIend, hcomm, _, _, _⟩ := hrest
  have hrun : np_run_cmds env
      (np_cmd.write_s addr0 L :: fs.map np_cmd.write_d) p0 rd0 =
      ((np_run_cmds env (fs.map np_cmd.write_d) p1 rd0).1,
       (np_run_cmds env (fs.map np_cmd.write_d) p1 rd0).2.1,
       [np_resp_msg.ok] ++ (np_run_cmds env (fs.map np_cmd.write_d) p1 rd0).2.2.1,
       [] ++ (np_run_cmds env (fs.map np_cmd.write_d) p1 rd0).2.2.2) := by
    simp only [np_run_cmds, hhandler]
    simp
  rw [hrun]
  -- at the end of the session the page buffer must be empty: the invariant
  -- gives its length as L minus a multiple of the page size below page size,
  -- and the page size divides L
  obtain ⟨qe, hqe, _⟩ := hIend.pages
  have hoffe := hIend.hoff
  have hdvd : chip.page_size ∣ (0 + (fs.map List.length).sum) := by
    rw [hsum, Nat.zero_add]; exact hG.hdvL
  have hoff0 : (np_run_cmds env (fs.map np_cmd.write_d) p1 rd0).1.page_offset = 0 := by
    rcases hdvd with ⟨c, hc⟩
    rcases Nat.lt_or_ge qe c with h | h
    · have : chip.page_size * (qe + 1) ≤ chip.page_size * c :=
        Nat.mul_le_mul_left _ h
      rw [Nat.mul_succ] at this
      omega
    · have : chip.page_size * c ≤ chip.page_size * qe :=
        Nat.mul_le_mul_left _ h
      omega
  have hbufnil : (np_run_cmds env (fs.map np_cmd.write_d) p1 rd0).1.page_buf = [] :=
    List.eq_nil_of_length_eq_zero (by rw [hIend.hbuf, hoff0])
  rw [hbufnil, List.append_nil] at hcomm
  have hp1buf : p1.page_buf = [] := by rw [← hp1]
  rw [hp1buf] at hcomm
  simpa using hcomm

/-- C3: across a write session from a successful write-start with declared
length L, the write-ack values are monotonically non-decreasing,
bytes_written is at least bytes_ack after every command prefix, and the
final write-ack of a session whose payload lengths sum to L carries L. -/
theorem C3_write_ack_monotone
    (env : np_env) (chip : chip_info_t) (p0 : np_prog_t) (rd0 : Nat)
    (addr0 L k : Nat) (fs : List (List Nat))
    (hps : chip.page_size = 2 ^ k) (hk : k < 32)
    (ha : 2 ^ k ∣ addr0) (hL : 2 ^ k ∣ L) (hL0 : 0 < L)
    (hbound : addr0 + L ≤ chip.size) (hsize : chip.size < 4294967296)
    (henv : ∀ i, env.read_status i = nand_status.ready)
    (hchip : p0.chip_info = some chip) (ht0 : p0.nand_timeout = 0)
    (hack0 : p0.bytes_ack ≤ p0.bytes_written)
    (hfs : ∀ f ∈ fs, 0 < f.length ∧
      f.length + np_write_data_cmd_size ≤ NP_PACKET_BUF_SIZE ∧
      f.length ≤ chip.page_size)
    (hsum : (fs.map List.length).sum = L) :
    List.Chain' (· ≤ ·) (acks (np_run_cmds env
      (np_cmd.write_s addr0 L :: fs.map np_cmd.write_d) p0 rd0).2.2.1) ∧
    (∀ j, ((np_run_cmds env
        ((np_cmd.write_s addr0 L :: fs.map np_cmd.write_d).take j) p0 rd0).1).bytes_ack ≤
      ((np_run_cmds env
        ((np_cmd.write_s addr0 L :: fs.map np_cmd.write_d).take j) p0 rd0).1).bytes_written) ∧
    (acks (np_run_cmds env
      (np_cmd.write_s addr0 L :: fs.map np_cmd.write_d) p0 rd0).2.2.1).getLast? =
      some L := by
  have hG := WGeom_of_pow2 hps ha hL hL0 hbound hsize
  have hstart := @np_write_start_ok chip p0 addr0 L k rd0 hps hk ha hL hL0 hbound hsize
  have hI0 := @WInv_start chip p0 addr0 L hchip ht0 hG.hps
  generalize hp1 : ({ p0 with
      addr := addr0, len := L, addr_is_set := true,
      page_page := addr0 / chip.page_size, page_offset := 0,
      page_buf := [], bytes_written := 0, bytes_ack := 0 } : np_prog_t) = p1
    at hstart hI0
  have hhandler : np_cmd_handler env p0 (np_cmd.write_s addr0 L) rd0 =
      ⟨0, p1, rd0, [.ok], [], true⟩ := by
    simp [np_cmd_handler, np_cmd_exec, np_cmd.code, hchip, hstart]
  have hfs_ne : fs ≠ [] := by
    intro hnil
    rw [hnil] at hsum
    simp at hsum
    omega
  refine ⟨?_, ?_, ?_⟩
  · obtain ⟨_, _, hchain, _, _⟩ := np_run_write_d hG henv fs 0 p1 rd0 hI0 hfs (by omega)
    have hrun : np_run_cmds env
        (np_cmd.write_s addr0 L :: fs.map np_cmd.write_d) p0 rd0 =
        ((np_run_cmds env (fs.map np_cmd.write_d) p1 rd0).1,
         (np_run_cmds env (fs.map np_cmd.write_d) p1 rd0).2.1,
         [np_resp_msg.ok] ++ (np_run_cmds env (fs.map np_cmd.write_d) p1 rd0).2.2.1,
         [] ++ (np_run_cmds env (fs.map np_cmd.write_d) p1 rd0).2.2.2) := by
      simp only [np_run_cmds, hhandler]
      simp
    rw [hrun]
    simpa [acks_append, acks] using hchain
  · intro j
    cases j with
    | zero => simpa [np_run_cmds] using hack0
    | succ j =>
        have htake : (np_cmd.write_s addr0 L :: fs.map np_cmd.write_d).take (j + 1) =
            np_cmd.write_s addr0 L :: (fs.take j).map np_cmd.write_d := by
          simp [List.take_succ_cons, List.map_take]
        rw [htake]
        have hsum_take : ((fs.take j).map List.length).sum ≤ L := by
          have h := congrArg (fun l => (List.map List.length l).sum)
            (List.take_append_drop j fs)
          simp only [List.map_append, List.sum_append] at h
          omega
        obtain ⟨hIj, _, _, _, _⟩ := np_run_write_d hG henv (fs.take j) 0 p1 rd0 hI0
          (fun g hg => hfs g (List.take_subset _ _ hg)) (by omega)
        have hrun : np_run_cmds env
            (np_cmd.write_s addr0 L :: (fs.take j).map np_cmd.write_d) p0 rd0 =
            ((np_run_cmds env ((fs.take j).map np_cmd.write_d) p1 rd0).1,
             (np_run_cmds env ((fs.take j).map np_cmd.write_d) p1 rd0).2.1,
             [np_resp_msg.ok] ++
               (np_run_cmds env ((fs.take j).map np_cmd.write_d) p1 rd0).2.2.1,
             [] ++ (np_run_cmds env ((fs.take j).map np_cmd.write_d) p1 rd0).2.2.2) := by
          simp only [np_run_cmds, hhandler]
          simp
        rw [hrun]
        rw [hIj.hbw]
        exact hIj.hack
  · obtain ⟨_, _, _, _, hlast⟩ := np_run_write_d hG henv fs 0 p1 rd0 hI0 hfs (by omega)
    have hrun : np_run_cmds env
        (np_cmd.write_s addr0 L :: fs.map np_cmd.write_d) p0 rd0 =
        ((np_run_cmds env (fs.map np_cmd.write_d) p1 rd0).1,
         (np_run_cmds env (fs.map np_cmd.write_d) p1 rd0).2.1,
         [np_resp_msg.ok] ++ (np_run_cmds env (fs.map np_cmd.write_d) p1 rd0).2.2.1,
         [] ++ (np_run_cmds env (fs.map np_cmd.write_d) p1 rd0).2.2.2) := by
      simp only [np_run_cmds, hhandler]
      simp
    rw [hrun]
    have := hlast (by omega) hfs_ne
    simpa [acks_append, acks] using this

/-! ## Concrete fixtures used by the witnesses and counterexamples -/

/-- An environment whose flash driver always reports ready, with no bad
blocks and an empty chip database. -/
def env_ready : np_env :=
  ⟨fun _ => .ready, fun _ => .ready, fun _ => .ready, fun _ => .ready,
   fun _ => 255, fun _ => [], fun _ => false, fun _ => none⟩

/-- A 64-byte-page geometry for concrete runs. -/
def chip64 : chip_info_t := ⟨64, 128, 1024⟩

/-- The boot-time session state with a chip selected. -/
def prog0 (c : chip_info_t) : np_prog_t :=
  ⟨0, 0, false, [], 0, 0, 0, 0, false, 0, some c⟩

/-- Witness for C1: a 64-byte write split into fragments of 30 and 34
bytes commits exactly their concatenation. -/
theorem C1_witness :
    committed (np_run_cmds env_ready
      (np_cmd.write_s 0 64 ::
        [List.replicate 30 1, List.replicate 34 2].map np_cmd.write_d)
      (prog0 chip64) 0).2.2.2 =
      ([List.replicate 30 1, List.replicate 34 2] : List (List Nat)).flatten :=
  C1_fragmentation_invariance env_ready chip64 (prog0 chip64) 0 0 64 6
    [List.replicate 30 1, List.replicate 34 2]
    (by decide) (by decide) (by decide) (by decide) (by decide) (by decide)
    (by decide) (fun _ => rfl) (by decide) (by decide) (by decide) (by decide)

/-- Witness for C3: a 128-byte write split into fragments of 59, 59 and 10
bytes produces non-decreasing acks ending at 128. -/
theorem C3_witness :
    List.Chain' (· ≤ ·) (acks (np_run_cmds env_ready
      (np_cmd.write_s 0 128 ::
        [List.replicate 59 1, List.replicate 59 2, List.replicate 10 3].map
          np_cmd.write_d) (prog0 chip64) 0).2.2.1) ∧
    ((np_run_cmds env_ready
      ((np_cmd.write_s 0 128 ::
        [List.replicate 59 1, List.replicate 59 2, List.replicate 10 3].map
          np_cmd.write_d).take 2) (prog0 chip64) 0).1.bytes_ack ≤
      (np_run_cmds env_ready
      ((np_cmd.write_s 0 128 ::
        [List.replicate 59 1, List.replicate 59 2, List.replicate 10 3].map
          np_cmd.write_d).take 2) (prog0 chip64) 0).1.bytes_written) ∧
    (acks (np_run_cmds env_ready
      (np_cmd.write_s 0 128 ::
        [List.replicate 59 1, List.replicate 59 2, List.replicate 10 3].map
          np_cmd.write_d) (prog0 chip64) 0).2.2.1).getLast? = some 128 := by
  have h := C3_write_ack_monotone env_ready chip64 (prog0 chip64) 0 0 128 6
    [List.replicate 59 1, List.replicate 59 2, List.replicate 10 3]
    (by decide) (by decide) (by decide) (by decide) (by decide) (by decide)
    (by decide) (fun _ => rfl) (by decide) (by decide) (by decide) (by decide)
    (by decide)
  exact ⟨h.1, h.2.1 2, h.2.2⟩

/-! ## Erase loop specification -/

/-- Peeling one block off the range of erase-driver calls of a clean run. -/
theorem erase_range_cons {bs pib page len : Nat} (hbs : 0 < bs)
    (hdvd : bs ∣ len) (hlenge : bs ≤ len) :
    (List.range (len / bs)).map
        (fun i => np_ext_op.erase_block (page + pib * i)) =
      np_ext_op.erase_block page ::
        (List.range ((len - bs) / bs)).map
          (fun i => np_ext_op.erase_block (page + pib + pib * i)) := by
  obtain ⟨c, rfl⟩ := hdvd
  cases c with
  | zero =>
      simp only [Nat.mul_zero] at hlenge
      omega
  | succ c =>
      have h1 : bs * (c + 1) / bs = c + 1 := Nat.mul_div_cancel_left _ hbs
      have h2 : bs * (c + 1) - bs = bs * c := by
        rw [Nat.mul_succ]
        omega
      have h3 : bs * c / bs = c := Nat.mul_div_cancel_left _ hbs
      rw [h1, h2, h3, List.range_succ_eq_map, List.map_cons, List.map_map]
      simp only [Nat.mul_zero, Nat.add_zero]
      congr 1
      apply List.map_congr_left
      intro a _
      simp only [Function.comp_apply, Nat.succ_eq_add_one, Nat.mul_succ]
      congr 1
      omega

/-- Specification of the erase block loop, proved by induction on the fuel:
(1) every erase-block driver call targets an address at or past the command
start, strictly inside the chip, and below the command window extended by
one block per bad-block report; (2) on success, every block of the declared
window was either erased or reported bad; (3) with no bad blocks and only
ready/timeout statuses, the loop erases exactly the blocks of the window
and reports nothing. -/
theorem np_erase_loop_spec {env : np_env} {chip : chip_info_t} {len0 pib : Nat}
    (hps : 0 < chip.page_size) (hbs : 0 < chip.block_size)
    (hpib : pib * chip.page_size = chip.block_size)
    (hwrap : chip.size + chip.block_size ≤ 4294967296) :
    ∀ (fuel addr page len : Nat),
    page * chip.page_size = addr →
    chip.block_size ∣ len →
    len ≤ chip.size →
    chip.size - addr < fuel →
    (∀ q, np_ext_op.erase_block q ∈
        (np_erase_loop env chip len0 pib fuel addr page len).ops →
      addr ≤ q * chip.page_size ∧ q * chip.page_size < chip.size ∧
      q * chip.page_size < addr + len + chip.block_size *
        ((np_erase_loop env chip len0 pib fuel addr page len).msgs.countP
          is_bad_block_msg)) ∧
    ((np_erase_loop env chip len0 pib fuel addr page len).ret = 0 →
      ∀ i, chip.block_size * i < len →
        np_ext_op.erase_block ((addr + chip.block_size * i) / chip.page_size) ∈
          (np_erase_loop env chip len0 pib fuel addr page len).ops ∨
        np_resp_msg.bad_block (addr + chip.block_size * i) ∈
          (np_erase_loop env chip len0 pib fuel addr page len).msgs) ∧
    ((∀ a, env.is_bad a = false) →
      (∀ q, env.erase_status q = .ready ∨ env.erase_status q = .timeout_error) →
      addr + len ≤ chip.size →
      np_erase_loop env chip len0 pib fuel addr page len =
        ⟨0, [], (List.range (len / chip.block_size)).map
          (fun i => .erase_block (page + pib * i))⟩) := by
  intro fuel
  induction fuel with
  | zero =>
      intro addr page len _ _ _ hfuel
      omega
  | succ fuel ih =>
      intro addr page len hlock hdvd hlen hfuel
      by_cases h0 : len = 0
      · subst h0
        simp [np_erase_loop]
      by_cases hge : addr ≥ chip.size
      · rw [np_erase_loop]
        rw [if_neg h0, if_pos hge]
        refine ⟨by simp, by intro h; simp [NP_ERR_ADDR_EXCEEDED] at h, ?_⟩
        intro _ _ hble
        omega
      -- main iteration: addr < size, len ≠ 0
      have hlenge : chip.block_size ≤ len := Nat.le_of_dvd (by omega) hdvd
      have hu : u32 (addr + chip.block_size) = addr + chip.block_size :=
        u32_eq (by omega)
      have hlock' : (page + pib) * chip.page_size =
          addr + chip.block_size := by
        rw [Nat.add_mul, hlock, hpib]
      have hupg : u32 (page + pib) = page + pib := by
        apply u32_eq
        have h1 : page + pib ≤ (page + pib) * chip.page_size := by
          calc page + pib = (page + pib) * 1 := by omega
          _ ≤ (page + pib) * chip.page_size := Nat.mul_le_mul_left _ hps
        omega
      have husub : u32sub len chip.block_size = len - chip.block_size :=
        u32sub_eq hlenge (by omega)
      have hpageq : addr / chip.page_size = page := by
        rw [← hlock]
        exact Nat.mul_div_cancel _ hps
      by_cases hbad : env.is_bad addr
      · -- bad block: reported and skipped
        have hlen'cases :
            (if len0 = chip.size then u32sub len chip.block_size else len) = len ∨
            (if len0 = chip.size then u32sub len chip.block_size else len) =
              len - chip.block_size := by
          split
          · right; exact husub
          · left; rfl
        have hdvd' : chip.block_size ∣
            (if len0 = chip.size then u32sub len chip.block_size else len) := by
          rcases hlen'cases with h | h <;> rw [h]
          · exact hdvd
          · exact Nat.dvd_sub' hdvd dvd_rfl
        have hlen' : (if len0 = chip.size then u32sub len chip.block_size else len) ≤
            chip.size := by
          rcases hlen'cases with h | h <;> rw [h] <;> omega
        obtain ⟨ihA, ihB, ihC⟩ := ih (addr + chip.block_size) (page + pib)
          (if len0 = chip.size then u32sub len chip.block_size else len)
          hlock' hdvd' hlen' (by omega)
        have hstep : np_erase_loop env chip len0 pib (fuel + 1) addr page len =
            ⟨(np_erase_loop env chip len0 pib fuel (addr + chip.block_size)
                (page + pib)
                (if len0 = chip.size then u32sub len chip.block_size else len)).ret,
              .bad_block addr ::
                (np_erase_loop env chip len0 pib fuel (addr + chip.block_size)
                  (page + pib)
                  (if len0 = chip.size then u32sub len chip.block_size else len)).msgs,
              (np_erase_loop env chip len0 pib fuel (addr + chip.block_size)
                (page + pib)
                (if len0 = chip.size then u32sub len chip.block_size else len)).ops⟩ := by
          rw [np_erase_loop]
          rw [if_neg h0, if_neg hge, if_pos hbad, hu, hupg]
        rw [hstep]
        refine ⟨?_, ?_, ?_⟩
        · intro e he
          obtain ⟨h1, h2, h3⟩ := ihA e he
          have hcount : (np_resp_msg.bad_block addr ::
              (np_erase_loop env chip len0 pib fuel (addr + chip.block_size)
                (page + pib)
                (if len0 = chip.size then u32sub len chip.block_size
                 else len)).msgs).countP is_bad_block_msg =
              ((np_erase_loop env chip len0 pib fuel (addr + chip.block_size)
                (page + pib)
                (if len0 = chip.size then u32sub len chip.block_size
                 else len)).msgs).countP is_bad_block_msg + 1 := by
            simp [List.countP_cons, is_bad_block_msg]
          rw [hcount, Nat.mul_succ]
          rcases hlen'cases with h | h <;> rw [h] at h3 ⊢ <;> omega
        · intro hret i hbi
          cases i with
          | zero => right; simp
          | succ i =>
              have hble' : chip.block_size * i <
                  (if len0 = chip.size then u32sub len chip.block_size else len) := by
                rcases hlen'cases with h | h <;> rw [h] <;>
                  rw [Nat.mul_succ] at hbi <;> omega
              have := ihB hret i hble'
              have harith : addr + chip.block_size + chip.block_size * i =
                  addr + chip.block_size * (i + 1) := by
                rw [Nat.mul_succ]; omega
              rcases this with h | h
              · left
                rw [harith] at h
                exact h
              · right
                rw [harith] at h
                exact List.mem_cons_of_mem _ h
        · intro hnb _ _
          rw [hnb addr] at hbad
          simp at hbad
      · -- good block: erased via the driver
        have hops : (np_nand_erase env chip page).ops = [.erase_block page] := by
          cases hst : env.erase_status page <;> simp [np_nand_erase, hst]
        have hstep : np_erase_loop env chip len0 pib (fuel + 1) addr page len =
            (if (np_nand_erase env chip page).ret ≠ 0 then
              ⟨NP_ERR_NAND_ERASE, (np_nand_erase env chip page).msgs,
                (np_nand_erase env chip page).ops⟩
            else
              ⟨(np_erase_loop env chip len0 pib fuel (addr + chip.block_size)
                  (page + pib) (len - chip.block_size)).ret,
                (np_nand_erase env chip page).msgs ++
                  (np_erase_loop env chip len0 pib fuel (addr + chip.block_size)
                    (page + pib) (len - chip.block_size)).msgs,
                (np_nand_erase env chip page).ops ++
                  (np_erase_loop env chip len0 pib fuel (addr + chip.block_size)
                    (page + pib) (len - chip.block_size)).ops⟩) := by
          rw [np_erase_loop]
          rw [if_neg h0, if_neg hge, if_neg hbad, hu, hupg, husub]
        obtain ⟨ihA, ihB, ihC⟩ := ih (addr + chip.block_size) (page + pib)
          (len - chip.block_size) hlock'
          (Nat.dvd_sub' hdvd dvd_rfl) (by omega) (by omega)
        by_cases hr : (np_nand_erase env chip page).ret ≠ 0
        · -- abort on an unrecognized driver status
          rw [hstep, if_pos hr, hops]
          refine ⟨?_, ?_, ?_⟩
          · intro e he
            simp at he
            subst he
            rw [hlock]
            refine ⟨le_rfl, by omega, by omega⟩
          · intro hret
            simp [NP_ERR_NAND_ERASE] at hret
          · intro _ hstat _
            rcases hstat page with h | h <;> simp [np_nand_erase, h] at hr
        · -- ready, error or timeout: the loop advances to the next block
          rw [hstep, if_neg hr, hops]
          refine ⟨?_, ?_, ?_⟩
          · intro e he
            have hcnt : ((np_nand_erase env chip page).msgs ++
                (np_erase_loop env chip len0 pib fuel (addr + chip.block_size)
                  (page + pib) (len - chip.block_size)).msgs).countP
                  is_bad_block_msg =
                ((np_nand_erase env chip page).msgs).countP is_bad_block_msg +
                ((np_erase_loop env chip len0 pib fuel (addr + chip.block_size)
                  (page + pib) (len - chip.block_size)).msgs).countP
                  is_bad_block_msg := List.countP_append _ _ _
            rw [hcnt, Nat.mul_add]
            rcases List.mem_cons.mp he with h | h
            · cases h
              rw [hlock]
              refine ⟨le_rfl, by omega, by omega⟩
            · obtain ⟨h1, h2, h3⟩ := ihA e h
              refine ⟨by omega, h2, by omega⟩
          · intro hret i hbi
            cases i with
            | zero =>
                left
                simp only [Nat.mul_zero, Nat.add_zero, hpageq]
                exact List.mem_cons_self _ _
            | succ i =>
                have harith : addr + chip.block_size + chip.block_size * i =
                    addr + chip.block_size * (i + 1) := by
                  rw [Nat.mul_succ]
                  omega
                have hble' : chip.block_size * i < len - chip.block_size := by
                  rw [Nat.mul_succ] at hbi
                  omega
                have hret' : (np_erase_loop env chip len0 pib fuel
                    (addr + chip.block_size) (page + pib)
                    (len - chip.block_size)).ret = 0 := hret
                rcases ihB hret' i hble' with h | h
                · left
                  rw [harith] at h
                  exact List.mem_cons_of_mem _ h
                · right
                  rw [harith] at h
                  exact List.mem_append_right _ h
          · intro hnb hstat hble
            have hermsgs : (np_nand_erase env chip page).msgs = [] := by
              rcases hstat page with h | h <;> simp [np_nand_erase, h]
            rw [hermsgs, ihC hnb hstat (by omega)]
            rw [erase_range_cons hbs hdvd hlenge]
            simp

/-- A block-aligned, non-empty, in-bounds erase command passes validation
and runs the block loop. -/
theorem np_cmd_erase_eq {env : np_env} {chip : chip_info_t} {addr len b s : Nat}
    (hbs : chip.block_size = 2 ^ b) (hb : b < 32)
    (hps : chip.page_size = 2 ^ s) (hs : s ≤ b)
    (hdva : 2 ^ b ∣ addr) (hdvl : 2 ^ b ∣ len) (hl0 : len ≠ 0)
    (hbound : addr + len ≤ chip.size)
    (hwrap : chip.size + chip.block_size ≤ 4294967296) :
    _np_cmd_nand_erase env chip addr len =
      (if (np_erase_loop env chip len (chip.block_size / chip.page_size)
          (chip.size + 1) addr (addr / chip.page_size) len).ret = 0 then
        ⟨0, (np_erase_loop env chip len (chip.block_size / chip.page_size)
          (chip.size + 1) addr (addr / chip.page_size) len).msgs ++ [.ok],
          (np_erase_loop env chip len (chip.block_size / chip.page_size)
            (chip.size + 1) addr (addr / chip.page_size) len).ops⟩
      else np_erase_loop env chip len (chip.block_size / chip.page_size)
        (chip.size + 1) addr (addr / chip.page_size) len) := by
  have hbspos : 0 < chip.block_size := by
    rw [hbs]; exact Nat.pos_pow_of_pos _ (by omega)
  have h1 : addr &&& u32_pred chip.block_size = 0 := by
    rw [hbs]; exact mask_eq_zero_of_dvd hb hdva
  have h2 : len &&& u32_pred chip.block_size = 0 := by
    rw [hbs]; exact mask_eq_zero_of_dvd hb hdvl
  have h3 : u32 (addr + len) = addr + len := u32_eq (by omega)
  have h4 : ¬ (addr + len > chip.size) := by omega
  simp only [_np_cmd_nand_erase, h1, h2, h3]
  simp [hl0, h4]

/-- Bundled side conditions for instantiating the erase-loop specification
on a validated command with power-of-two geometry. -/
theorem np_erase_loop_spec_of_cmd {env : np_env} {chip : chip_info_t}
    {addr len b s : Nat}
    (hbs : chip.block_size = 2 ^ b) (hps : chip.page_size = 2 ^ s) (hs : s ≤ b)
    (hdva : 2 ^ b ∣ addr) (hdvl : 2 ^ b ∣ len)
    (hbound : addr + len ≤ chip.size)
    (hwrap : chip.size + chip.block_size ≤ 4294967296) {len0 : Nat} :
    (∀ q, np_ext_op.erase_block q ∈
        (np_erase_loop env chip len0 (chip.block_size / chip.page_size)
          (chip.size + 1) addr (addr / chip.page_size) len).ops →
      addr ≤ q * chip.page_size ∧ q * chip.page_size < chip.size ∧
      q * chip.page_size < addr + len + chip.block_size *
        ((np_erase_loop env chip len0 (chip.block_size / chip.page_size)
          (chip.size + 1) addr (addr / chip.page_size) len).msgs.countP
          is_bad_block_msg)) ∧
    ((np_erase_loop env chip len0 (chip.block_size / chip.page_size)
        (chip.size + 1) addr (addr / chip.page_size) len).ret = 0 →
      ∀ i, chip.block_size * i < len →
        np_ext_op.erase_block ((addr + chip.block_size * i) / chip.page_size) ∈
          (np_erase_loop env chip len0 (chip.block_size / chip.page_size)
            (chip.size + 1) addr (addr / chip.page_size) len).ops ∨
        np_resp_msg.bad_block (addr + chip.block_size * i) ∈
          (np_erase_loop env chip len0 (chip.block_size / chip.page_size)
            (chip.size + 1) addr (addr / chip.page_size) len).msgs) ∧
    ((∀ a, env.is_bad a = false) →
      (∀ q, env.erase_status q = .ready ∨ env.erase_status q = .timeout_error) →
      addr + len ≤ chip.size →
      np_erase_loop env chip len0 (chip.block_size / chip.page_size)
        (chip.size + 1) addr (addr / chip.page_size) len =
        ⟨0, [], (List.range (len / chip.block_size)).map
          (fun i => .erase_block (addr / chip.page_size +
            chip.block_size / chip.page_size * i))⟩) := by
  have hpspos : 0 < chip.page_size := by
    rw [hps]; exact Nat.pos_pow_of_pos _ (by omega)
  have hbspos : 0 < chip.block_size := by
    rw [hbs]; exact Nat.pos_pow_of_pos _ (by omega)
  have hpsdvdbs : chip.page_size ∣ chip.block_size := by
    rw [hps, hbs]; exact pow_dvd_pow 2 hs
  have hpsdvda : chip.page_size ∣ addr := by
    rw [hps]
    exact dvd_trans (pow_dvd_pow 2 hs) (hbs ▸ hdva)
  have hpib : chip.block_size / chip.page_size * chip.page_size =
      chip.block_size := Nat.div_mul_cancel hpsdvdbs
  have hlock : addr / chip.page_size * chip.page_size = addr :=
    Nat.div_mul_cancel hpsdvda
  exact np_erase_loop_spec hpspos hbspos hpib hwrap (chip.size + 1) addr
    (addr / chip.page_size) len hlock (hbs ▸ hdvl) (by omega) (by omega)

/-- A 4-byte-page, 4-byte-block, 16-byte chip for concrete erase runs. -/
def chip4 : chip_info_t := ⟨4, 4, 16⟩

/-- An environment whose bad-block table marks address 0 bad and whose
driver always reports ready. -/
def env_bad0 : np_env :=
  ⟨fun _ => .ready, fun _ => .ready, fun _ => .ready, fun _ => .ready,
   fun _ => 255, fun _ => [], fun a => a == 0, fun _ => none⟩

/-- Counterexample for C2 as stated: erasing [0, 4) on a chip whose block 0
is in the bad-block table returns ok after erasing the block at address 4,
which lies outside [addr, addr + len): skipping the bad block did not
consume any of the remaining length, so the window slid past its end. -/
theorem C2_counterexample :
    _np_cmd_nand_erase env_bad0 chip4 0 4 =
      ⟨0, [.bad_block 0, .ok], [.erase_block 1]⟩ ∧
    np_ext_op.erase_block 1 ∈ (_np_cmd_nand_erase env_bad0 chip4 0 4).ops ∧
    ¬ (1 * chip4.page_size < 0 + 4) := by
  refine ⟨by decide, by decide, by decide⟩

/-- C2 (amended): for every erase request that passes validation, when the
command returns ok every block of [addr, addr+len) was either erased via
the flash driver or reported as a bad block; and every erased block's start
address lies in [addr, addr + len + B * k), where B is the block size and
k the number of bad-block responses the command emitted — bad-block
skipping slides the erase window past addr + len by one block per skipped
report, so blocks outside [addr, addr+len) can be erased exactly when bad
blocks were reported. -/
theorem C2_erase_window (env : np_env) (chip : chip_info_t)
    (addr len b s : Nat)
    (hbs : chip.block_size = 2 ^ b) (hb : b < 32)
    (hps : chip.page_size = 2 ^ s) (hs : s ≤ b)
    (hdva : 2 ^ b ∣ addr) (hdvl : 2 ^ b ∣ len) (hl0 : len ≠ 0)
    (hbound : addr + len ≤ chip.size)
    (hwrap : chip.size + chip.block_size ≤ 4294967296) :
    ((_np_cmd_nand_erase env chip addr len).ret = 0 →
      ∀ i, chip.block_size * i < len →
        np_ext_op.erase_block ((addr + chip.block_size * i) / chip.page_size) ∈
          (_np_cmd_nand_erase env chip addr len).ops ∨
        np_resp_msg.bad_block (addr + chip.block_size * i) ∈
          (_np_cmd_nand_erase env chip addr len).msgs) ∧
    (∀ q, np_ext_op.erase_block q ∈ (_np_cmd_nand_erase env chip addr len).ops →
      addr ≤ q * chip.page_size ∧
      q * chip.page_size < addr + len + chip.block_size *
        ((_np_cmd_nand_erase env chip addr len).msgs.countP is_bad_block_msg)) := by
  obtain ⟨hA, hB, _⟩ := @np_erase_loop_spec_of_cmd env chip addr len b s
    hbs hps hs hdva hdvl hbound hwrap len
  rw [np_cmd_erase_eq hbs hb hps hs hdva hdvl hl0 hbound hwrap]
  by_cases hr : (np_erase_loop env chip len (chip.block_size / chip.page_size)
      (chip.size + 1) addr (addr / chip.page_size) len).ret = 0
  · rw [if_pos hr]
    have hcnt : ((np_erase_loop env chip len (chip.block_size / chip.page_size)
        (chip.size + 1) addr (addr / chip.page_size) len).msgs ++
        [np_resp_msg.ok]).countP is_bad_block_msg =
        ((np_erase_loop env chip len (chip.block_size / chip.page_size)
          (chip.size + 1) addr (addr / chip.page_size) len).msgs).countP
          is_bad_block_msg := by
      rw [List.countP_append]
      simp [is_bad_block_msg]
    refine ⟨?_, ?_⟩
    · intro _ i hi
      rcases hB hr i hi with h | h
      · exact Or.inl h
      · exact Or.inr (List.mem_append_left _ h)
    · intro q hq
      obtain ⟨h1, _, h3⟩ := hA q hq
      rw [hcnt]
      exact ⟨h1, h3⟩
  · rw [if_neg hr]
    refine ⟨fun h => absurd h hr, ?_⟩
    intro q hq
    obtain ⟨h1, _, h3⟩ := hA q hq
    exact ⟨h1, h3⟩

/-- Witness for C2's amended theorem at the counterexample scenario: the
erased block at address 4 lies within the extended window
[0, 0 + 4 + 4 * 1). -/
theorem C2_witness :
    0 ≤ 1 * chip4.page_size ∧
    1 * chip4.page_size < 0 + 4 + chip4.block_size *
      ((_np_cmd_nand_erase env_bad0 chip4 0 4).msgs.countP is_bad_block_msg) :=
  (C2_erase_window env_bad0 chip4 0 4 2 2 (by decide) (by decide) (by decide)
    (by decide) (by decide) (by decide) (by decide) (by decide) (by decide)).2
    1 (by decide)

/-- C9: during a validated erase command the erase-block primitive is
never invoked for a block whose start address is at or beyond the chip
size; and whenever the loop reaches a cursor at or past the chip end while
length remains, it aborts with the address-exceeded error without any
driver call or response. -/
theorem C9_erase_in_bounds (env : np_env) (chip : chip_info_t)
    (addr len b s : Nat)
    (hbs : chip.block_size = 2 ^ b) (hb : b < 32)
    (hps : chip.page_size = 2 ^ s) (hs : s ≤ b)
    (hdva : 2 ^ b ∣ addr) (hdvl : 2 ^ b ∣ len) (hl0 : len ≠ 0)
    (hbound : addr + len ≤ chip.size)
    (hwrap : chip.size + chip.block_size ≤ 4294967296) :
    (∀ q, np_ext_op.erase_block q ∈ (_np_cmd_nand_erase env chip addr len).ops →
      q * chip.page_size < chip.size) ∧
    (∀ (env2 : np_env) (chip2 : chip_info_t) (len0 pib fuel addr2 page2 len2 : Nat),
      len2 ≠ 0 → addr2 ≥ chip2.size →
      np_erase_loop env2 chip2 len0 pib (fuel + 1) addr2 page2 len2 =
        ⟨NP_ERR_ADDR_EXCEEDED, [], []⟩) := by
  obtain ⟨hA, _, _⟩ := @np_erase_loop_spec_of_cmd env chip addr len b s
    hbs hps hs hdva hdvl hbound hwrap len
  constructor
  · rw [np_cmd_erase_eq hbs hb hps hs hdva hdvl hl0 hbound hwrap]
    by_cases hr : (np_erase_loop env chip len (chip.block_size / chip.page_size)
        (chip.size + 1) addr (addr / chip.page_size) len).ret = 0
    · rw [if_pos hr]
      intro q hq
      exact (hA q hq).2.1
    · rw [if_neg hr]
      intro q hq
      exact (hA q hq).2.1
  · intro env2 chip2 len0 pib fuel addr2 page2 len2 h0 hge
    rw [np_erase_loop]
    rw [if_neg h0, if_pos hge]

/-- Witness for C9 at the bad-block scenario: the erase call stayed inside
the chip, and a loop state past the chip end aborts. -/
theorem C9_witness :
    1 * chip4.page_size < chip4.size ∧
    np_erase_loop env_bad0 chip4 4 1 1 16 4 4 =
      ⟨NP_ERR_ADDR_EXCEEDED, [], []⟩ :=
  ⟨(C9_erase_in_bounds env_bad0 chip4 0 4 2 2 (by decide) (by decide) (by decide)
      (by decide) (by decide) (by decide) (by decide) (by decide) (by decide)).1
      1 (by decide),
   (C9_erase_in_bounds env_bad0 chip4 0 4 2 2 (by decide) (by decide) (by decide)
      (by decide) (by decide) (by decide) (by decide) (by decide) (by decide)).2
      env_bad0 chip4 4 1 0 16 4 4 (by decide) (by decide)⟩

/-- A 4-byte-page, 8-byte-block, 32-byte chip. -/
def chip8 : chip_info_t := ⟨4, 8, 32⟩

/-- An environment whose driver reports a timeout when erasing page 2 and
ready otherwise, with an empty bad-block table. -/
def env_timeout2 : np_env :=
  ⟨fun _ => .ready, fun q => if q = 2 then .timeout_error else .ready,
   fun _ => .ready, fun _ => .ready, fun _ => 255, fun _ => [],
   fun _ => false, fun _ => none⟩

/-- C8: when the flash driver reports a timeout for one block erase inside
a validated erase command (no bad blocks, every status ready or timeout),
that block's failure is only logged: the erase call for it is still issued,
the loop advances exactly as on success, no error or bad-block response is
emitted for it, and the command terminates with the ok status. -/
theorem C8_erase_timeout_logged_only (env : np_env) (chip : chip_info_t)
    (addr len b s i0 : Nat)
    (hbs : chip.block_size = 2 ^ b) (hb : b < 32)
    (hps : chip.page_size = 2 ^ s) (hs : s ≤ b)
    (hdva : 2 ^ b ∣ addr) (hdvl : 2 ^ b ∣ len) (hl0 : len ≠ 0)
    (hbound : addr + len ≤ chip.size)
    (hwrap : chip.size + chip.block_size ≤ 4294967296)
    (hnb : ∀ a, env.is_bad a = false)
    (hstat : ∀ q, env.erase_status q = .ready ∨
      env.erase_status q = .timeout_error)
    (hto : env.erase_status (addr / chip.page_size +
      chip.block_size / chip.page_size * i0) = .timeout_error)
    (hi0 : chip.block_size * i0 < len) :
    _np_cmd_nand_erase env chip addr len =
      ⟨0, [.ok], (List.range (len / chip.block_size)).map
        (fun i => np_ext_op.erase_block (addr / chip.page_size +
          chip.block_size / chip.page_size * i))⟩ ∧
    np_ext_op.erase_block (addr / chip.page_size +
      chip.block_size / chip.page_size * i0) ∈
      (_np_cmd_nand_erase env chip addr len).ops := by
  obtain ⟨_, _, hC⟩ := @np_erase_loop_spec_of_cmd env chip addr len b s
    hbs hps hs hdva hdvl hbound hwrap len
  have hloop := hC hnb hstat hbound
  have heq : _np_cmd_nand_erase env chip addr len =
      ⟨0, [.ok], (List.range (len / chip.block_size)).map
        (fun i => np_ext_op.erase_block (addr / chip.page_size +
          chip.block_size / chip.page_size * i))⟩ := by
    rw [np_cmd_erase_eq hbs hb hps hs hdva hdvl hl0 hbound hwrap, hloop]
    simp
  refine ⟨heq, ?_⟩
  rw [heq]
  have hbspos : 0 < chip.block_size := by
    rw [hbs]; exact Nat.pos_pow_of_pos _ (by omega)
  have hi0lt : i0 < len / chip.block_size := by
    obtain ⟨c, rfl⟩ := hdvl
    rw [← hbs] at hi0 ⊢
    rw [Nat.mul_div_cancel_left _ hbspos]
    exact Nat.lt_of_mul_lt_mul_left hi0
  exact List.mem_map_of_mem _ (List.mem_range.mpr hi0lt)

/-- Witness for C8: erasing [8, 24) on a 32-byte chip with a timeout on
page 2 still issues both erase calls and replies ok. -/
theorem C8_witness :
    _np_cmd_nand_erase env_timeout2 chip8 8 16 =
      ⟨0, [.ok], (List.range (16 / chip8.block_size)).map
        (fun i => np_ext_op.erase_block (8 / chip8.page_size +
          chip8.block_size / chip8.page_size * i))⟩ ∧
    np_ext_op.erase_block (8 / chip8.page_size +
      chip8.block_size / chip8.page_size * 0) ∈
      (_np_cmd_nand_erase env_timeout2 chip8 8 16).ops :=
  C8_erase_timeout_logged_only env_timeout2 chip8 8 16 3 2 0
    (by decide) (by decide) (by decide) (by decide) (by decide) (by decide)
    (by decide) (by decide) (by decide) (fun _ => rfl)
    (by
      intro q
      simp only [env_timeout2]
      split
      · exact Or.inr rfl
      · exact Or.inl rfl)
    (by decide) (by decide)

/-! ## Wait-loop lemmas for the write pipeline -/

/-- The synchronous wait loop only returns success once the in-flight flag
has been observed cleared. -/
theorem np_nand_write_wait_resolved (env : np_env) :
    ∀ (fuel : Nat) (p : np_prog_t) (rd : Nat),
    (np_nand_write_wait env fuel p rd).ret = 0 →
    (np_nand_write_wait env fuel p rd).prog.nand_wr_in_progress = false := by
  intro fuel
  induction fuel with
  | zero =>
      intro p rd h
      simp [np_nand_write_wait] at h
  | succ fuel ih =>
      intro p rd h
      rw [np_nand_write_wait] at h ⊢
      by_cases h1 : (np_nand_handle_status env p rd).ret ≠ 0
      · rw [if_pos h1] at h
        simp at h
      · rw [if_neg h1] at h ⊢
        by_cases h2 : (np_nand_handle_status env p rd).prog.nand_wr_in_progress
        · rw [if_pos h2] at h ⊢
          exact ih _ _ h
        · rw [if_neg h2] at h ⊢
          simpa using h2

/-- Under an always-busy status oracle the wait loop exhausts the timeout
counter and fails, sending nothing. -/
theorem np_nand_write_wait_busy (env : np_env)
    (henv : ∀ i, env.read_status i = nand_status.busy) :
    ∀ (fuel : Nat) (p : np_prog_t) (rd : Nat),
    p.nand_wr_in_progress = true →
    p.nand_timeout < NP_NAND_TIMEOUT →
    NP_NAND_TIMEOUT - p.nand_timeout < fuel →
    (np_nand_write_wait env fuel p rd).ret = -1 ∧
    (np_nand_write_wait env fuel p rd).msgs = [] := by
  intro fuel
  induction fuel with
  | zero =>
      intro p rd _ _ hf
      omega
  | succ fuel ih =>
      intro p rd hip ht hf
      have hu : u32 (p.nand_timeout + 1) = p.nand_timeout + 1 :=
        u32_eq (by unfold NP_NAND_TIMEOUT at ht; omega)
      rw [np_nand_write_wait]
      by_cases heq : p.nand_timeout + 1 = NP_NAND_TIMEOUT
      · have hh : np_nand_handle_status env p rd =
            ⟨-1, { p with nand_wr_in_progress := false, nand_timeout := 0 },
              rd + 1, [], []⟩ := by
          simp only [np_nand_handle_status, henv rd]
          rw [hu, if_pos heq]
        rw [hh]
        simp
      · have hh : np_nand_handle_status env p rd =
            ⟨0, { p with nand_timeout := p.nand_timeout + 1 }, rd + 1, [], []⟩ := by
          simp only [np_nand_handle_status, henv rd]
          rw [hu, if_neg heq]
        rw [hh]
        have hrec := ih { p with nand_timeout := p.nand_timeout + 1 } (rd + 1)
          (by simpa using hip) (by simp; omega) (by simp; omega)
        simp only [hip] at hrec
        simp [hip, hrec.1, hrec.2]

/-- C4: at most one asynchronous page write is in flight.  (1) The wait
loop reports success only after observing the in-flight flag cleared.
(2) np_nand_write issues no page write when it fails.  (3) When a write
was in flight and np_nand_write succeeds, the wait resolved first and
exactly one page write is issued from the resolved state.  (4) If the
status stays busy until the timeout ceiling, a page-filling write-data
command fails with the NAND-write error and no page write is issued. -/
theorem C4_single_write_in_flight :
    (∀ (env : np_env) (fuel : Nat) (p : np_prog_t) (rd : Nat),
      (np_nand_write_wait env fuel p rd).ret = 0 →
      (np_nand_write_wait env fuel p rd).prog.nand_wr_in_progress = false) ∧
    (∀ (env : np_env) (chip : chip_info_t) (p : np_prog_t) (rd : Nat),
      (np_nand_write env chip p rd).ret ≠ 0 →
      (np_nand_write env chip p rd).ops = []) ∧
    (∀ (env : np_env) (chip : chip_info_t) (p : np_prog_t) (rd : Nat),
      p.nand_wr_in_progress = true →
      (np_nand_write env chip p rd).ret = 0 →
      (np_nand_write_wait env (NP_NAND_TIMEOUT + 1) p rd).ret = 0 ∧
      (np_nand_write_wait env (NP_NAND_TIMEOUT + 1) p rd).prog.nand_wr_in_progress
        = false ∧
      (np_nand_write env chip p rd).ops =
        [.write_page
          (np_nand_write_wait env (NP_NAND_TIMEOUT + 1) p rd).prog.page_buf
          (np_nand_write_wait env (NP_NAND_TIMEOUT + 1) p rd).prog.page_page
          chip.page_size]) ∧
    (∀ (env : np_env) (chip : chip_info_t) (p : np_prog_t) (data : List Nat)
        (rd : Nat),
      (∀ i, env.read_status i = nand_status.busy) →
      p.nand_wr_in_progress = true →
      p.nand_timeout = 0 →
      p.addr_is_set = true →
      p.addr < chip.size →
      data.length + np_write_data_cmd_size ≤ NP_PACKET_BUF_SIZE →
      p.page_offset + data.length = chip.page_size →
      (np_cmd_nand_write_data env chip p data rd).ret = NP_ERR_NAND_WR ∧
      (np_cmd_nand_write_data env chip p data rd).ops = []) := by
  refine ⟨np_nand_write_wait_resolved, ?_, ?_, ?_⟩
  · intro env chip p rd h
    unfold np_nand_write at h ⊢
    by_cases hip : p.nand_wr_in_progress <;>
      simp only [hip, if_true, if_false, ite_true, ite_false] at h ⊢
    · by_cases hw : (np_nand_write_wait env (NP_NAND_TIMEOUT + 1) p rd).ret ≠ 0 <;>
        simp [hw] at h ⊢
    · simp at h
  · intro env chip p rd hip hr
    unfold np_nand_write at hr ⊢
    simp only [hip, if_true, ite_true] at hr ⊢
    by_cases hw : (np_nand_write_wait env (NP_NAND_TIMEOUT + 1) p rd).ret ≠ 0
    · rw [if_pos hw] at hr
      simp at hr
    · rw [if_neg hw] at hr ⊢
      push_neg at hw
      exact ⟨hw, np_nand_write_wait_resolved env _ p rd hw, rfl⟩
  · intro env chip p data rd henv hip ht hset haddr hlen hoff
    have hwait := np_nand_write_wait_busy env henv (NP_NAND_TIMEOUT + 1)
      (np_fill p data data.length) rd (by simpa [np_fill] using hip)
      (by simp [np_fill, ht, NP_NAND_TIMEOUT]) (by simp [np_fill, ht])
    have hnw : np_nand_write env chip (np_fill p data data.length) rd =
        ⟨-1, (np_nand_write_wait env (NP_NAND_TIMEOUT + 1)
            (np_fill p data data.length) rd).prog,
          (np_nand_write_wait env (NP_NAND_TIMEOUT + 1)
            (np_fill p data data.length) rd).rd, [], []⟩ := by
      unfold np_nand_write
      have hip' : (np_fill p data data.length).nand_wr_in_progress = true := by
        simpa [np_fill] using hip
      simp only [hip', if_true, ite_true]
      rw [if_pos (by rw [hwait.1]; decide)]
      rw [hwait.2]
    have hwlc : ¬ (p.page_offset + data.length > chip.page_size) := by omega
    have hc1 : ¬ (data.length + np_write_data_cmd_size > NP_PACKET_BUF_SIZE) := by
      omega
    have hc3 : ¬ (p.addr ≥ chip.size) := by omega
    have heq : np_cmd_nand_write_data env chip p data rd =
        np_write_data_finish chip data data.length
          ⟨NP_ERR_NAND_WR, (np_nand_write_wait env (NP_NAND_TIMEOUT + 1)
              (np_fill p data data.length) rd).prog,
            (np_nand_write_wait env (NP_NAND_TIMEOUT + 1)
              (np_fill p data data.length) rd).rd, [], []⟩ := by
      simp only [np_fill, List.take_length, hset, hoff] at hnw
      simp [np_cmd_nand_write_data, hc1, hset, hc3, hwlc, hoff, hnw, np_fill]
    rw [heq]
    unfold np_write_data_finish
    simp [NP_ERR_NAND_WR]

/-- An environment whose flash status register always reads busy. -/
def env_busy : np_env :=
  ⟨fun _ => .busy, fun _ => .ready, fun _ => .ready, fun _ => .ready,
   fun _ => 255, fun _ => [], fun _ => false, fun _ => none⟩

/-- A session state with a page write in flight and a half-filled buffer. -/
def prog_busy : np_prog_t := ⟨0, 8, true, [], 0, 0, 4, 0, true, 0, some chip8⟩

/-- Witness for C4: with an always-busy status and a page-filling fragment,
the write-data command fails with the NAND-write error and no page write is
issued. -/
theorem C4_witness :
    (np_cmd_nand_write_data env_busy chip8 prog_busy [1, 2, 3, 4] 0).ret =
      NP_ERR_NAND_WR ∧
    (np_cmd_nand_write_data env_busy chip8 prog_busy [1, 2, 3, 4] 0).ops = [] :=
  C4_single_write_in_flight.2.2.2 env_busy chip8 prog_busy [1, 2, 3, 4] 0
    (fun _ => rfl) (by decide) (by decide) (by decide) (by decide) (by decide)
    (by decide)

/-- C5: while no chip is selected the dispatcher rejects every command
except chip-select with the chip-not-selected error and never invokes the
handler; a failed select clears the geometry; and any run of commands from
an unselected state in which every select fails leaves the state unchanged
and answers every command with the corresponding error status. -/
theorem C5_chip_not_selected :
    (∀ (env : np_env) (p : np_prog_t) (c : np_cmd) (rd : Nat),
      p.chip_info = none → c.code ≠ 6 →
      np_cmd_handler env p c rd = ⟨NP_ERR_CHIP_NOT_SEL, p, rd, [], [], false⟩) ∧
    (∀ (env : np_env) (p : np_prog_t) (n rd : Nat),
      env.chip_db n = none →
      np_cmd_handler env p (.select n) rd =
        ⟨NP_ERR_CHIP_NOT_FOUND, { p with chip_info := none }, rd, [], [], true⟩) ∧
    (∀ (env : np_env) (cmds : List np_cmd) (p : np_prog_t) (rd : Nat),
      p.chip_info = none →
      (∀ n, np_cmd.select n ∈ cmds → env.chip_db n = none) →
      np_run_cmds env cmds p rd =
        (p, rd, cmds.map (fun c => if c.code = 6 then
          np_resp_msg.error 107 else np_resp_msg.error 106), [])) := by
  have h1 : ∀ (env : np_env) (p : np_prog_t) (c : np_cmd) (rd : Nat),
      p.chip_info = none → c.code ≠ 6 →
      np_cmd_handler env p c rd = ⟨NP_ERR_CHIP_NOT_SEL, p, rd, [], [], false⟩ := by
    intro env p c rd hnone hc
    simp [np_cmd_handler, hnone, hc]
  have h2 : ∀ (env : np_env) (p : np_prog_t) (n rd : Nat),
      env.chip_db n = none →
      np_cmd_handler env p (.select n) rd =
        ⟨NP_ERR_CHIP_NOT_FOUND, { p with chip_info := none }, rd, [], [], true⟩ := by
    intro env p n rd hdb
    simp [np_cmd_handler, np_cmd_exec, np_cmd.code, np_cmd_nand_select, hdb]
  refine ⟨h1, h2, ?_⟩
  intro env cmds
  induction cmds with
  | nil =>
      intro p rd _ _
      simp [np_run_cmds]
  | cons c cs ih =>
      intro p rd hnone hsel
      by_cases hc6 : c.code = 6
      · obtain ⟨n, rfl⟩ : ∃ n, c = np_cmd.select n := by
          cases c <;> simp only [np_cmd.code] at hc6 <;>
            first
              | exact ⟨_, rfl⟩
              | omega
        have hdb := hsel n (by simp)
        have hrest := ih p rd hnone
          (fun m hm => hsel m (List.mem_cons_of_mem _ hm))
        simp only [np_run_cmds, h2 env p n rd hdb, chip_none_update hnone]
        rw [hrest]
        simp [np_cmd.code, NP_ERR_CHIP_NOT_FOUND, u8i]
      · have hrest := ih p rd hnone
          (fun m hm => hsel m (List.mem_cons_of_mem _ hm))
        simp only [np_run_cmds, h1 env p c rd hnone hc6]
        rw [hrest]
        simp [hc6, NP_ERR_CHIP_NOT_SEL, u8i]

/-- The boot-time session state before any chip was selected. -/
def prog_none : np_prog_t := ⟨0, 0, false, [], 0, 0, 0, 0, false, 0, none⟩

/-- Witness for C5: with an empty chip database, a failed select followed
by an erase and a read-id all fail with the expected error statuses and
leave the state untouched. -/
theorem C5_witness :
    np_run_cmds env_ready [np_cmd.select 3, np_cmd.erase 0 8, np_cmd.read_id]
      prog_none 0 =
      (prog_none, 0,
        [np_resp_msg.error 107, np_resp_msg.error 106, np_resp_msg.error 106],
        []) :=
  C5_chip_not_selected.2.2 env_ready
    [np_cmd.select 3, np_cmd.erase 0 8, np_cmd.read_id]
    prog_none 0 (by decide) (fun _ _ => rfl)

/-- The geometry of the code-bug scenario for C6. -/
def chip2048 : chip_info_t := ⟨2048, 131072, 67108864⟩

/-- C6: a write-start whose length is non-zero, in bounds and not
page-aligned (address aligned) is rejected with no state change and no
side effects, but the source returns NP_ERR_ADDR_NOT_ALIGN — the
address-misalignment code — even though its own error message reports a
length misalignment and the sibling erase/read handlers return
NP_ERR_LEN_NOT_ALIGN for the identical check: the claimed specific
"length not aligned" code is never produced. -/
theorem C6_write_start_length_alignment_code :
    np_cmd_nand_write_start chip2048 (prog0 chip2048) 0 1024 0 =
      ⟨NP_ERR_ADDR_NOT_ALIGN, prog0 chip2048, 0, [], []⟩ ∧
    NP_ERR_ADDR_NOT_ALIGN ≠ NP_ERR_LEN_NOT_ALIGN ∧
    (0 &&& u32_pred chip2048.page_size = 0 ∧ 1024 ≠ 0 ∧
      1024 &&& u32_pred chip2048.page_size ≠ 0 ∧
      0 + 1024 ≤ chip2048.size) := by
  refine ⟨by decide, by decide, by decide, by decide, by decide, by decide⟩

/-- An environment whose flash status register always reads error. -/
def env_status_error : np_env :=
  ⟨fun _ => .error, fun _ => .ready, fun _ => .ready, fun _ => .ready,
   fun _ => 255, fun _ => [], fun _ => false, fun _ => none⟩

/-- Counterexample for C7 as stated: after write-start at 0 and one
page-filling write-data, the page write was issued for page 0 (address 0),
but the completion poller observing an error status reports a bad block at
address 4 — the advanced cursor, not the address at which the page was
issued. -/
theorem C7_counterexample :
    (np_run_cmds env_status_error [np_cmd.write_s 0 8, np_cmd.write_d [1, 2, 3, 4]]
      (prog0 chip8) 0).2.2.2 =
      [np_ext_op.write_page [1, 2, 3, 4] 0 chip8.page_size] ∧
    (np_nand_handler env_status_error
      (np_run_cmds env_status_error
        [np_cmd.write_s 0 8, np_cmd.write_d [1, 2, 3, 4]] (prog0 chip8) 0).1
      (np_run_cmds env_status_error
        [np_cmd.write_s 0 8, np_cmd.write_d [1, 2, 3, 4]] (prog0 chip8) 0).2.1).2.2 =
      [np_resp_msg.bad_block 4] ∧
    ¬ ((4 : Nat) = 0 * chip8.page_size) := by
  refine ⟨by decide, by decide, by decide⟩

/-- C7 (amended): whenever the completion poller runs with a write in
flight and the status reads error, it emits one bad-block response carrying
the current write cursor prog.addr and then clears the in-flight flag and
the timeout counter; for a page committed by write-data, prog.addr at that
point is one page past the address at which the in-flight page write was
issued. -/
theorem C7_poller_error_reports_cursor :
    (∀ (env : np_env) (p : np_prog_t) (rd : Nat),
      p.nand_wr_in_progress = true →
      env.read_status rd = nand_status.error →
      np_nand_handler env p rd =
        ({ p with nand_wr_in_progress := false, nand_timeout := 0 }, rd + 1,
          [np_resp_msg.bad_block p.addr])) ∧
    (∀ (env : np_env) (chip : chip_info_t) (p : np_prog_t) (data : List Nat)
        (rd : Nat),
      p.nand_wr_in_progress = false →
      p.addr_is_set = true → p.addr < chip.size →
      data.length + np_write_data_cmd_size ≤ NP_PACKET_BUF_SIZE →
      p.page_offset + data.length = chip.page_size →
      p.addr + chip.page_size < 4294967296 →
      p.bytes_written + data.length < 4294967296 →
      p.bytes_ack ≤ p.bytes_written →
      (np_cmd_nand_write_data env chip p data rd).ops =
        [np_ext_op.write_page (p.page_buf ++ data) p.page_page chip.page_size] ∧
      (np_cmd_nand_write_data env chip p data rd).prog.addr =
        u32 (p.addr + chip.page_size)) := by
  constructor
  · intro env p rd hip herr
    simp [np_nand_handler, np_nand_handle_status, hip, herr]
  · intro env chip p data rd hip hset haddr hlen hoff hwrap hbw hack
    have hwlc : ¬ (p.page_offset + data.length > chip.page_size) := by omega
    have hc1 : ¬ (data.length + np_write_data_cmd_size > NP_PACKET_BUF_SIZE) := by
      omega
    have hc3 : ¬ (p.addr ≥ chip.size) := by omega
    have hnw : np_nand_write env chip (np_fill p data data.length) rd =
        ⟨0, { (np_fill p data data.length) with nand_wr_in_progress := true },
          rd, [],
          [.write_page (np_fill p data data.length).page_buf
            (np_fill p data data.length).page_page chip.page_size]⟩ := by
      have hip' : (np_fill p data data.length).nand_wr_in_progress = false := by
        simpa [np_fill] using hip
      unfold np_nand_write
      simp [hip', hip]
    simp only [np_fill, List.take_length, hset, hoff] at hnw
    have heq : np_cmd_nand_write_data env chip p data rd =
        np_write_data_finish chip data data.length
          ⟨0, np_commit chip (np_fill p data data.length), rd, [],
            [.write_page (p.page_buf ++ data) p.page_page chip.page_size]⟩ := by
      simp [np_cmd_nand_write_data, hc1, hset, hc3, hwlc, hoff, hnw, np_fill,
        np_commit]
    rw [heq, np_write_data_finish_eq chip data data.length _ rd _ _
      le_rfl (by simp [np_commit, np_fill]; omega)
      (by simp [np_commit, np_fill]; omega)]
    simp only [Nat.sub_self, ne_eq, not_true_eq_false, if_false, ite_false]
    constructor
    · split <;> split <;> rfl
    · have haddr_eq : ∀ b : Bool, True := fun _ => trivial
      split <;> split <;> simp [np_commit, np_fill]

/-- A session state with a write in flight at cursor address 12. -/
def prog_inflight : np_prog_t := ⟨12, 8, true, [], 3, 0, 4, 4, true, 0, some chip8⟩

/-- Witness for C7's amended theorem: the poller reports the cursor address
12 and clears the flags; a fresh page-filling write-data issues the page at
the pre-advance cursor and advances it by one page. -/
theorem C7_witness :
    np_nand_handler env_status_error prog_inflight 0 =
      ({ prog_inflight with nand_wr_in_progress := false, nand_timeout := 0 },
        1, [np_resp_msg.bad_block 12]) ∧
    (np_cmd_nand_write_data env_ready chip8
        (⟨0, 8, true, [], 0, 0, 0, 0, false, 0, some chip8⟩ : np_prog_t)
        [1, 2, 3, 4] 0).ops =
      [np_ext_op.write_page ([] ++ [1, 2, 3, 4]) 0 chip8.page_size] ∧
    (np_cmd_nand_write_data env_ready chip8
        (⟨0, 8, true, [], 0, 0, 0, 0, false, 0, some chip8⟩ : np_prog_t)
        [1, 2, 3, 4] 0).prog.addr = u32 (0 + chip8.page_size) := by
  have h2 := C7_poller_error_reports_cursor.2 env_ready chip8
    ⟨0, 8, true, [], 0, 0, 0, 0, false, 0, some chip8⟩ [1, 2, 3, 4] 0
    (by decide) (by decide) (by decide) (by decide) (by decide) (by decide)
    (by decide) (by decide)
  exact ⟨C7_poller_error_reports_cursor.1 env_status_error prog_inflight 0
    (by decide) rfl, h2.1, h2.2⟩

/-- A session state left mid-page (offset 1) before write-end. -/
def prog_midpage : np_prog_t := ⟨4, 8, true, [9], 1, 1, 5, 4, false, 0, some chip8⟩

/-- Counterexample for C10 as stated: after a failing write-end the flag is
cleared, but a subsequent write-data whose 255-byte payload exceeds the
packet buffer is rejected with the command-data-size error, not the
address-invalid error: the packet-size check precedes the address check. -/
theorem C10_counterexample :
    (np_cmd_nand_write_end prog_midpage 0).ret = NP_ERR_NAND_WR ∧
    (np_cmd_nand_write_end prog_midpage 0).prog.addr_is_set = false ∧
    (np_cmd_nand_write_data env_ready chip8 (np_cmd_nand_write_end prog_midpage 0).prog
      (List.replicate 255 0) 0).ret = NP_ERR_CMD_DATA_SIZE ∧
    NP_ERR_CMD_DATA_SIZE ≠ NP_ERR_ADDR_INVALID := by
  refine ⟨by decide, by decide, by decide, by decide⟩

/-- C10 (amended): write-end clears the address-valid flag unconditionally,
before the page-buffer check — even when failing with the incomplete-page
error — and every subsequent write-data command whose payload passes the
packet-size check is rejected with the address-invalid error, leaving the
state unchanged, until a new successful write-start. -/
theorem C10_write_end_clears_flag :
    (∀ (p : np_prog_t) (rd : Nat),
      (np_cmd_nand_write_end p rd).prog.addr_is_set = false ∧
      (p.page_offset ≠ 0 → np_cmd_nand_write_end p rd =
        ⟨NP_ERR_NAND_WR, { p with addr_is_set := false }, rd, [], []⟩)) ∧
    (∀ (env : np_env) (chip : chip_info_t) (q : np_prog_t) (data : List Nat)
        (rd : Nat),
      q.addr_is_set = false →
      data.length + np_write_data_cmd_size ≤ NP_PACKET_BUF_SIZE →
      np_cmd_nand_write_data env chip q data rd =
        ⟨NP_ERR_ADDR_INVALID, q, rd, [], []⟩) := by
  constructor
  · intro p rd
    constructor
    · simp only [np_cmd_nand_write_end]
      split <;> rfl
    · intro hoff
      simp only [np_cmd_nand_write_end]
      rw [if_pos (by simpa using hoff)]
  · intro env chip q data rd hset hlen
    have hc1 : ¬ (data.length + np_write_data_cmd_size > NP_PACKET_BUF_SIZE) := by
      omega
    simp [np_cmd_nand_write_data, hc1, hset]

/-- Witness for C10's amended theorem at the mid-page scenario: the flag is
cleared, the incomplete-page error is returned, and a well-sized follow-up
write-data is rejected with the address-invalid error. -/
theorem C10_witness :
    (np_cmd_nand_write_end prog_midpage 0).prog.addr_is_set = false ∧
    np_cmd_nand_write_end prog_midpage 0 =
      ⟨NP_ERR_NAND_WR, { prog_midpage with addr_is_set := false }, 0, [], []⟩ ∧
    np_cmd_nand_write_data env_ready chip8
      { prog_midpage with addr_is_set := false } [1, 2] 0 =
      ⟨NP_ERR_ADDR_INVALID, { prog_midpage with addr_is_set := false }, 0, [], []⟩ :=
  ⟨(C10_write_end_clears_flag.1 prog_midpage 0).1,
   (C10_write_end_clears_flag.1 prog_midpage 0).2 (by decide),
   C10_write_end_clears_flag.2 env_ready chip8
     { prog_midpage with addr_is_set := false } [1, 2] 0 (by decide) (by decide)⟩

end NandProg
